import Mathlib

/-!
Verification of the invoice/delivery numbering and total-consistency engine
of the `lokisha` business-management application (files `invoice/models.py`
and `invoice/forms.py`).

The Django models are shallowly embedded as Lean structures; the database is
a record of lists of rows, and every model method (`Invoice.save`,
`InvoiceItem.save`, the `update_invoice_totals` signal handler, the
`convert_to_invoice` methods and the number generators) is translated into a
pure function on that state.  Python floats are embedded as exact rationals,
with `round(x, 2)` translated as round-half-to-even on hundredths; monetary
values in the claims below are never compared at float-tie points, so the
exact rational model agrees with the float semantics at every input used.
Rational addition and multiplication are spelled `qadd`/`qmul` — reducible
definitions by cross-multiplication, proved equal to `Rat.add`/`Rat.mul`
below — so that concrete witness states evaluate by `decide`.  String
ordering and parsing are defined on the character lists underlying `String`,
matching Python's code-point comparison of `str`.

Django's `unique=True` column constraint on the document-number fields is
modelled by `Except`-valued saves that fail with an `IntegrityError` when a
write would duplicate a non-null number (multiple nulls are allowed, as in
SQL).  Primary keys are drawn from a single global counter `nextPk` starting
at 1 (Django uses one autoincrement sequence per table; a shared counter
assigns the same structure of fresh, never-reused, nonzero identities, and no
modelled behaviour depends on the particular value of a key).
-/

/-- Rational addition by cross-multiplication (`Rat.add_def'`); reducible,
unlike the `@[irreducible]` instance path. -/
def qadd (a b : Rat) : Rat := mkRat (a.num * b.den + b.num * a.den) (a.den * b.den)

/-- Rational multiplication, numerators times denominators (`Rat.mul_def`). -/
def qmul (a b : Rat) : Rat := mkRat (a.num * b.num) (a.den * b.den)

/-- `sum(...)` over a list of rationals, starting from `0` like Python. -/
def qsum (l : List Rat) : Rat := l.foldl qadd 0

/-- Round-half-to-even of `100 * q` to an integer, on raw numerator and
denominator (the fractional part `r / den` is compared against `1/2` by
cross-multiplication, so only integer arithmetic occurs). -/
def rhe100 (q : Rat) : Int :=
  let n : Int := 100 * q.num
  let d : Int := (q.den : Int)
  let f : Int := n.ediv d
  let r : Int := n - f * d
  if 2 * r < d then f
  else if d < 2 * r then f + 1
  else if f % 2 = 0 then f else f + 1

/-- Python's `round(x, 2)` on the exact-rational embedding of floats. -/
def round2 (q : Rat) : Rat := mkRat (rhe100 q) 100

/-- Code-point lexicographic comparison of character lists: Python's `<` on
`str` (and Lean's `String.lt`), restated reducibly. -/
def strLtB : List Char → List Char → Bool
  | [], [] => false
  | [], _ :: _ => true
  | _ :: _, [] => false
  | a :: as, b :: bs =>
    if a.toNat < b.toNat then true
    else if b.toNat < a.toNat then false
    else strLtB as bs

/-- `p` is an initial segment of `s` (Django's `__startswith` lookup). -/
def startsWithB : List Char → List Char → Bool
  | [], _ => true
  | _ :: _, [] => false
  | p :: ps, s :: ss => if p = s then startsWithB ps ss else false

/-- Maximum of a list of strings under code-point order (Django's
`order_by(field).last()` over the non-null values of the column). -/
def maxStr? (l : List String) : Option String :=
  l.foldl (fun acc s =>
    match acc with
    | none => some s
    | some m => if strLtB m.data s.data then some s else some m) none

/-- Value of a list of decimal digit characters. -/
def digitsToNat (l : List Char) : Nat :=
  l.foldl (fun a c => a * 10 + (c.toNat - 48)) 0

/-- Python `str.strip()` whitespace (the ASCII cases; no other whitespace
occurs in this code base). -/
def isPySpace (c : Char) : Bool :=
  c = ' ' ∨ c = '\t' ∨ c = '\n' ∨ c = '\r' ∨ c.toNat = 11 ∨ c.toNat = 12

/-- Python's `int(s)`: optional surrounding whitespace, optional sign, a
nonempty run of decimal digits; anything else raises `ValueError` (here:
`none`).  (Underscore separators and non-ASCII digits, which Python also
accepts, never occur in this code base and are not modelled.) -/
def pyInt (s : String) : Option Int :=
  match ((s.data.dropWhile isPySpace).reverse.dropWhile isPySpace).reverse with
  | [] => none
  | c :: rest =>
    if c = '-' then
      if rest ≠ [] ∧ rest.all Char.isDigit then some (-(digitsToNat rest : Int)) else none
    else if c = '+' then
      if rest ≠ [] ∧ rest.all Char.isDigit then some (digitsToNat rest) else none
    else if (c :: rest).all Char.isDigit then some (digitsToNat (c :: rest)) else none

/-- Decimal rendering of `n` left-padded with zeros to width `w`. -/
def padNat (w : Nat) (n : Nat) : String :=
  let s := toString n
  String.mk (List.replicate (w - s.length) '0') ++ s

/-- Python's `f"{n:0wd}"`: the sign counts toward the width. -/
def padInt (w : Nat) (n : Int) : String :=
  if n < 0 then "-" ++ padNat (w - 1) (-n).toNat else padNat w n.toNat

/-- Python's `s[k:]` by code points. -/
def strDrop (s : String) (k : Nat) : String := String.mk (s.data.drop k)

/-- A row of the `Invoice` table (`invoice/models.py`, class `Invoice`).
The `slug` and `date` columns are derived/auxiliary and not modelled; the
customer foreign key is modelled as an opaque identifier. -/
structure InvoiceRec where
  pk : Nat
  invoice_number : Option String
  customer_name : Nat
  contact_number : String
  shipping : Rat
  total : Rat
  grand_total : Rat
  is_proforma : Bool
  status : String
  converted_to_invoice : Option Nat
  delivery_source : Option Nat
  deriving Repr, DecidableEq

/-- A row of the `InvoiceItem` table. -/
structure InvoiceItemRec where
  pk : Nat
  invoice : Nat
  item : Nat
  quantity : Rat
  price_per_item : Rat
  total_price : Rat
  deriving Repr, DecidableEq

/-- A row of the `Delivery` table (`shipping_address`/`notes`/`date` carry no
logic and are not modelled). -/
structure DeliveryRec where
  pk : Nat
  delivery_number : Option String
  customer_name : Nat
  contact_number : String
  status : String
  converted_to_invoice : Option Nat
  deriving Repr, DecidableEq

/-- A row of the `DeliveryItem` table. -/
structure DeliveryItemRec where
  pk : Nat
  delivery : Nat
  item : Nat
  quantity : Rat
  price_per_item : Rat
  total_price : Rat
  deriving Repr, DecidableEq

/-- The persistent store: the four tables plus a fresh-key counter. -/
structure DB where
  invoices : List InvoiceRec
  invoiceItems : List InvoiceItemRec
  deliveries : List DeliveryRec
  deliveryItems : List DeliveryItemRec
  nextPk : Nat
  deriving Repr, DecidableEq

def emptyDB : DB := ⟨[], [], [], [], 1⟩

def findInvoice (db : DB) (k : Nat) : Option InvoiceRec :=
  db.invoices.find? (fun r => r.pk == k)

def findDelivery (db : DB) (k : Nat) : Option DeliveryRec :=
  db.deliveries.find? (fun r => r.pk == k)

def findItem (db : DB) (k : Nat) : Option InvoiceItemRec :=
  db.invoiceItems.find? (fun r => r.pk == k)

/-- `invoice.items.all()` — the invoice's line items in insertion (`id`)
order, which is how rows are appended here. -/
def itemsOf (db : DB) (invPk : Nat) : List InvoiceItemRec :=
  db.invoiceItems.filter (fun r => r.invoice == invPk)

/-- `delivery.items.all()`. -/
def deliveryItemsOf (db : DB) (dPk : Nat) : List DeliveryItemRec :=
  db.deliveryItems.filter (fun r => r.delivery == dPk)

/-- Python falsiness of the number field: `None` or the empty string. -/
def numberUnset : Option String → Bool
  | none => true
  | some s => s == ""

/-- `sum(item.total_price for item in invoice.items.all())`, rounded — the
`total` that `Invoice.save` and the `update_invoice_totals` receiver both
compute (models.py lines 66-67 and 264-265). -/
def calcTotal (db : DB) (k : Nat) : Rat :=
  round2 (qsum ((itemsOf db k).map (fun it => it.total_price)))

/-- `round(total + shipping, 2)` (models.py lines 68 and 266). -/
def calcGrand (db : DB) (k : Nat) (inv : InvoiceRec) : Rat :=
  round2 (qadd (calcTotal db k) inv.shipping)

/-- The non-null invoice numbers starting with `pfx`, as queried by
`Invoice.objects.filter(invoice_number__startswith=prefix)`. -/
def invoiceNumbersWith (db : DB) (pfx : String) : List String :=
  (db.invoices.filterMap (fun r => r.invoice_number)).filter
    (fun s => startsWithB pfx.data s.data)

/-- `Invoice.get_next_invoice_number` (models.py lines 117-133): take the
string-maximum existing number with the given one-character kind tag, parse
the suffix after the first character, increment, wrap to 1 past 9999, format
as four zero-padded digits; on no match or an unparsable suffix fall back to
the literal `"0001"` suffix. -/
def get_next_invoice_number (db : DB) (pfx : String) : String :=
  match maxStr? (invoiceNumbersWith db pfx) with
  | none => pfx ++ "0001"
  | some m =>
    match pyInt (strDrop m 1) with
    | none => pfx ++ "0001"
    | some n =>
      let nx := n + 1
      let nx := if nx > 9999 then 1 else nx
      pfx ++ padInt 4 nx

/-- `Delivery.get_next_delivery_number` (models.py lines 225-235): the whole
table is ordered by `delivery_number` and the last row taken (under SQLite,
nulls sort first, so this is the maximum non-null number when one exists and
a null-numbered row — whose slice raises `TypeError`, caught by the fallback
— only when every number is null); the suffix after the two-character `"DL"`
tag is parsed and incremented with NO wrap check, five-digit padded. -/
def get_next_delivery_number (db : DB) : String :=
  if db.deliveries.isEmpty then "DL00001"
  else
    match maxStr? (db.deliveries.filterMap (fun r => r.delivery_number)) with
    | none => "DL00001"
    | some m =>
      match pyInt (strDrop m 2) with
      | none => "DL00001"
      | some n => "DL" ++ padInt 5 (n + 1)

/-- Decidable equality for `Except` results, so that concrete runs of the
fallible operations below can be checked by `decide`. -/
instance exceptDecEq {ε α : Type} [DecidableEq ε] [DecidableEq α] :
    DecidableEq (Except ε α) := fun a b =>
  match a, b with
  | .error e, .error e' =>
    if h : e = e' then .isTrue (by rw [h]) else .isFalse (by simp [h])
  | .error _, .ok _ => .isFalse (by simp)
  | .ok _, .error _ => .isFalse (by simp)
  | .ok v, .ok v' =>
    if h : v = v' then .isTrue (by rw [h]) else .isFalse (by simp [h])

/-- Replace every `Invoice` row keyed `k` by `f` applied to it. -/
def updInvoice (db : DB) (k : Nat) (f : InvoiceRec → InvoiceRec) : DB :=
  { db with invoices := db.invoices.map (fun r => if r.pk == k then f r else r) }

/-- Replace every `Delivery` row keyed `k` by `f` applied to it. -/
def updDelivery (db : DB) (k : Nat) (f : DeliveryRec → DeliveryRec) : DB :=
  { db with deliveries := db.deliveries.map (fun r => if r.pk == k then f r else r) }

/-- Does writing invoice row `inv` (insert or update) violate the
`unique=True` constraint on `invoice_number`?  Null numbers never collide. -/
def invNumberClash (db : DB) (inv : InvoiceRec) : Bool :=
  db.invoices.any (fun r =>
    r.pk ≠ inv.pk ∧ r.invoice_number ≠ none ∧ r.invoice_number = inv.invoice_number)

/-- As `invNumberClash`, for `delivery_number`. -/
def delNumberClash (db : DB) (d : DeliveryRec) : Bool :=
  db.deliveries.any (fun r =>
    r.pk ≠ d.pk ∧ r.delivery_number ≠ none ∧ r.delivery_number = d.delivery_number)

/-- `Invoice.objects.create(...)` (an unsaved instance run through
`Invoice.save`, models.py lines 60-78): no primary key yet, so totals are
set to the 0.0 defaults; the number is generated since `create` never passes
one; the INSERT enforces the unique constraint.  Returns the new key.
(The `pre_save` signal `set_invoice_number` re-runs the same assignment and
finds the number already set; it has no further effect and is not repeated
here.) -/
def newInvoiceRow (db : DB) (customer : Nat) (contact : String) (shipping : Rat)
    (isProforma : Bool) (status : String) (deliverySource : Option Nat) : InvoiceRec :=
  { pk := db.nextPk,
    invoice_number := some (get_next_invoice_number db (if isProforma then "P" else "I")),
    customer_name := customer, contact_number := contact, shipping := shipping,
    total := 0, grand_total := 0, is_proforma := isProforma, status := status,
    converted_to_invoice := none, delivery_source := deliverySource }

def createInvoice (db : DB) (customer : Nat) (contact : String) (shipping : Rat)
    (isProforma : Bool) (status : String) (deliverySource : Option Nat) :
    Except String (DB × Nat) :=
  let r0 := newInvoiceRow db customer contact shipping isProforma status deliverySource
  if invNumberClash db r0 then .error "IntegrityError: invoice_number"
  else .ok ({ db with invoices := db.invoices ++ [r0], nextPk := db.nextPk + 1 }, db.nextPk)

/-- `Invoice.save` on an already-persisted row (models.py lines 60-78): the
row's totals are recomputed from its current line items, a missing/empty
number would be (re)generated, and the UPDATE enforces the unique
constraint. -/
def invoiceResave (db : DB) (k : Nat) : Except String DB :=
  match findInvoice db k with
  | none => .error "Invoice.DoesNotExist"
  | some inv =>
    let inv1 := { inv with total := calcTotal db k, grand_total := calcGrand db k inv }
    let pfx := if inv1.is_proforma then "P" else "I"
    let inv2 :=
      if numberUnset inv1.invoice_number then
        { inv1 with invoice_number := some (get_next_invoice_number db pfx) }
      else inv1
    if invNumberClash db inv2 then .error "IntegrityError: invoice_number"
    else .ok (updInvoice db k (fun _ => inv2))

/-- `Delivery.save` on an already-persisted row (models.py lines 189-192). -/
def deliveryResave (db : DB) (k : Nat) : Except String DB :=
  match findDelivery db k with
  | none => .error "Delivery.DoesNotExist"
  | some d =>
    let d1 :=
      if numberUnset d.delivery_number then
        { d with delivery_number := some (get_next_delivery_number db) }
      else d
    if delNumberClash db d1 then .error "IntegrityError: delivery_number"
    else .ok (updDelivery db k (fun _ => d1))

/-- The `update_invoice_totals` receiver (models.py lines 256-271), fired
`post_save`/`post_delete` on `InvoiceItem`: re-sum the invoice's current
items, round, and write ONLY the two total columns through a
`queryset.update()` (which fires no signals and cannot recurse). -/
def update_invoice_totals (db : DB) (invPk : Nat) : DB :=
  match findInvoice db invPk with
  | none => db
  | some inv =>
    updInvoice db invPk (fun r =>
      { r with total := calcTotal db invPk, grand_total := calcGrand db invPk inv })

/-- `InvoiceItem.objects.create(...)` / a new item saved through
`InvoiceItem.save` (models.py lines 146-155): `total_price` is computed,
the row INSERTed (firing the `post_save` receiver), and then the parent
invoice is re-saved in full.  Returns the new item's key. -/
def addInvoiceItem (db : DB) (invPk itemRef : Nat) (q p : Rat) :
    Except String (DB × Nat) :=
  match findInvoice db invPk with
  | none => .error "Invoice.DoesNotExist"
  | some _ =>
    let it : InvoiceItemRec :=
      { pk := db.nextPk, invoice := invPk, item := itemRef, quantity := q,
        price_per_item := p, total_price := round2 (qmul q p) }
    let db1 := { db with invoiceItems := db.invoiceItems ++ [it], nextPk := db.nextPk + 1 }
    let db2 := update_invoice_totals db1 invPk
    match invoiceResave db2 invPk with
    | .error e => .error e
    | .ok db3 => .ok (db3, it.pk)

/-- An existing item edited and saved through `InvoiceItem.save`: the row is
UPDATEd with the recomputed `total_price`, the `post_save` receiver fires,
and the parent invoice is re-saved. -/
def updateInvoiceItem (db : DB) (itemPk : Nat) (q p : Rat) : Except String DB :=
  match findItem db itemPk with
  | none => .error "InvoiceItem.DoesNotExist"
  | some it0 =>
    let it := { it0 with quantity := q, price_per_item := p, total_price := round2 (qmul q p) }
    let db1 := { db with invoiceItems := db.invoiceItems.map (fun r => if r.pk == itemPk then it else r) }
    let db2 := update_invoice_totals db1 it0.invoice
    invoiceResave db2 it0.invoice

/-- `item.delete()`: the row is removed and the `post_delete` receiver fires
with the deleted instance (whose `invoice` foreign key still points at the
parent).  Deleting an unknown key is a no-op. -/
def deleteInvoiceItem (db : DB) (itemPk : Nat) : DB :=
  match findItem db itemPk with
  | none => db
  | some it0 =>
    let db1 := { db with invoiceItems := db.invoiceItems.filter (fun r => r.pk ≠ itemPk) }
    update_invoice_totals db1 it0.invoice

/-- One iteration of the item-copy loop inside both `convert_to_invoice`
methods: `InvoiceItem.objects.create(invoice=.., item=.., quantity=..,
price_per_item=..)` for each source line item's field triple. -/
def copyItemsLoop (db : DB) (invPk : Nat) (src : List (Nat × Rat × Rat)) :
    Except String DB :=
  match src with
  | [] => .ok db
  | (i, q, p) :: rest =>
    match addInvoiceItem db invPk i q p with
    | .error e => .error e
    | .ok (db1, _) => copyItemsLoop db1 invPk rest

/-- `Invoice.convert_to_invoice` (models.py lines 80-111): a non-proforma
returns itself unchanged; a proforma — with NO check of its
`converted_to_invoice` link — creates a fresh regular invoice copying
customer, contact and shipping, copies every line item, re-saves the new
invoice, then marks itself converted with status `'paid'` and saves. -/
def invoiceConvert (db : DB) (k : Nat) : Except String (DB × Nat) :=
  match findInvoice db k with
  | none => .error "Invoice.DoesNotExist"
  | some inv =>
    if ¬ inv.is_proforma then .ok (db, k)
    else
      match createInvoice db inv.customer_name inv.contact_number inv.shipping
          false "draft" none with
      | .error e => .error e
      | .ok (db1, newPk) =>
        match copyItemsLoop db1 newPk
            ((itemsOf db k).map (fun it => (it.item, it.quantity, it.price_per_item))) with
        | .error e => .error e
        | .ok db2 =>
          match invoiceResave db2 newPk with
          | .error e => .error e
          | .ok db3 =>
            let db4 := updInvoice db3 k (fun r =>
              { r with converted_to_invoice := some newPk, status := "paid" })
            match invoiceResave db4 k with
            | .error e => .error e
            | .ok db5 => .ok (db5, newPk)

/-- `Delivery.convert_to_invoice` (models.py lines 194-223): an already-set
`converted_to_invoice` link short-circuits to the existing target; otherwise
a fresh invoice is created with `shipping=0.0` and `delivery_source=self`,
the delivery's items are copied, the invoice re-saved, and the delivery
marked `'delivered'` with the link set and saved. -/
def deliveryConvert (db : DB) (k : Nat) : Except String (DB × Nat) :=
  match findDelivery db k with
  | none => .error "Delivery.DoesNotExist"
  | some d =>
    match d.converted_to_invoice with
    | some t => .ok (db, t)
    | none =>
      match createInvoice db d.customer_name d.contact_number 0
          false "draft" (some k) with
      | .error e => .error e
      | .ok (db1, newPk) =>
        match copyItemsLoop db1 newPk
            ((deliveryItemsOf db k).map (fun it => (it.item, it.quantity, it.price_per_item))) with
        | .error e => .error e
        | .ok db2 =>
          match invoiceResave db2 newPk with
          | .error e => .error e
          | .ok db3 =>
            let db4 := updDelivery db3 k (fun r =>
              { r with converted_to_invoice := some newPk, status := "delivered" })
            match deliveryResave db4 k with
            | .error e => .error e
            | .ok db5 => .ok (db5, newPk)

/-- The cleaned data of an `InvoiceItemForm`: each field is `none` when the
submitted value was empty/invalid at the field level (Django's
`cleaned_data.get`). -/
structure ItemFormData where
  item : Option Nat
  quantity : Option Rat
  price_per_item : Option Rat
  deriving Repr, DecidableEq

/-- `InvoiceItemForm.clean` (forms.py lines 82-102).  `catalogPrice` is the
referenced product's list price (`item.price`).  Python falsiness makes
`not price_per_item` true for both a missing and a zero price, so a zero
price is replaced by the catalog price before validation; the final check
`not price or price < 0` likewise rejects a zero effective price. -/
def itemFormClean (catalogPrice : Nat → Rat) (d : ItemFormData) :
    Except String ItemFormData :=
  let d :=
    match d.item, d.price_per_item with
    | some i, none => { d with price_per_item := some (catalogPrice i) }
    | some i, some p => if p = 0 then { d with price_per_item := some (catalogPrice i) } else d
    | none, _ => d
  match d.item with
  | none => .error "Item is required"
  | some _ =>
    match d.quantity with
    | none => .error "Valid quantity is required"
    | some q =>
      if q ≤ 0 then .error "Valid quantity is required"
      else
        match d.price_per_item with
        | none => .error "Valid price is required"
        | some p =>
          if p = 0 ∨ p < 0 then .error "Valid price is required"
          else .ok d

/-- Rewrite only the two total columns of the rows keyed `k` — the exact
write shape of the `update_invoice_totals` receiver. -/
def setTotals (l : List InvoiceRec) (k : Nat) (t g : Rat) : List InvoiceRec :=
  l.map (fun r => if r.pk == k then { r with total := t, grand_total := g } else r)

/-- The stored totals of invoice `k` agree with its current line items:
`total` is the 2-decimal-rounded item sum and `grand_total` is the
2-decimal-rounded `total + shipping` (spec property P2). -/
def totalsConsistent (db : DB) (k : Nat) : Prop :=
  ∀ r, findInvoice db k = some r →
    r.total = round2 (qsum ((itemsOf db k).map (fun it => it.total_price))) ∧
    r.grand_total = round2 (r.total + r.shipping)

/-- The non-null invoice numbers currently stored. -/
def invNumbers (db : DB) : List String :=
  db.invoices.filterMap (fun r => r.invoice_number)

/-- The stored number of invoice `k`, when the row exists and is numbered. -/
def numberOf (db : DB) (k : Nat) : Option String :=
  (findInvoice db k).bind (fun r => r.invoice_number)

/-- A sequential run of document creations and document saves, the operations
quantified over by the numbering claim. -/
inductive DocOp where
  | createI (customer : Nat) (contact : String) (shipping : Rat)
      (isProforma : Bool) (status : String)
  | saveI (k : Nat)
  deriving Repr, DecidableEq

/-- Apply one operation; a failed save (`IntegrityError`) leaves the store
unchanged, as the surrounding transaction would. -/
def applyOp (db : DB) : DocOp → DB
  | .createI c ct sh isP st =>
    match createInvoice db c ct sh isP st none with
    | .ok (db', _) => db'
    | .error _ => db
  | .saveI k =>
    match invoiceResave db k with
    | .ok db' => db'
    | .error _ => db

def runOps (db : DB) (ops : List DocOp) : DB := ops.foldl applyOp db

/-- Reachability invariant for `runOps` from the empty store: primary keys
are distinct and below the counter, every invoice is numbered with a
non-empty number, and numbers are pairwise distinct. -/
def GoodDB (db : DB) : Prop :=
  (db.invoices.map (fun r => r.pk)).Nodup ∧
  (∀ r ∈ db.invoices, r.pk < db.nextPk) ∧
  (∀ r ∈ db.invoices, r.invoice_number ≠ none ∧ r.invoice_number ≠ some "") ∧
  (invNumbers db).Nodup

/-- The error condition of claim C8 as the spec words it: a `ValidationError`
exactly when "the quantity is not greater than 0 or the unit price is below 0
or a required field is missing", with the unit price "defaulted from the
catalog price of the referenced product" when absent or zero "before
validation". -/
def effectivePrice (catalogPrice : Nat → Rat) (d : ItemFormData) : Option Rat :=
  match d.item, d.price_per_item with
  | some i, none => some (catalogPrice i)
  | some i, some p => if p = 0 then some (catalogPrice i) else some p
  | none, p => p

def specItemFormError (catalogPrice : Nat → Rat) (d : ItemFormData) : Bool :=
  d.item.isNone ||
    (match d.quantity with | none => true | some q => decide (q ≤ 0)) ||
    (match effectivePrice catalogPrice d with | none => true | some p => decide (p < 0))

/-- The amended error condition that `InvoiceItemForm.clean` actually
enforces: additionally, a zero effective price (after catalog defaulting) is
rejected. -/
def codeItemFormError (catalogPrice : Nat → Rat) (d : ItemFormData) : Bool :=
  d.item.isNone ||
    (match d.quantity with | none => true | some q => decide (q ≤ 0)) ||
    (match effectivePrice catalogPrice d with | none => true | some p => decide (p ≤ 0))

/-- A store holding one already-converted proforma (`P0001`, linked to the
regular invoice `I0001` with key 2): the input falsifying claim C2. -/
def dbConvertedProforma : DB :=
  { emptyDB with
    invoices :=
      [⟨1, some "P0001", 4, "0711", 0, 0, 0, true, "paid", some 2, none⟩,
       ⟨2, some "I0001", 4, "0711", 0, 0, 0, false, "draft", none, none⟩],
    nextPk := 3 }

/-- A store holding one delivery numbered `DL99999`: the input falsifying the
delivery half of claim C5. -/
def dbDeliveryAtMax : DB :=
  { emptyDB with
    deliveries := [⟨1, some "DL99999", 4, "0711", "draft", none⟩],
    nextPk := 2 }

/-- A persisted, item-less invoice whose shipping `1/16` is a float not
representable in 2 decimals (an exact double, so the Python value is the
same rational): the input falsifying claim C6's `grandTotal = shippingCost`. -/
def dbOddShipping : DB :=
  { emptyDB with
    invoices := [⟨1, some "I0001", 4, "0711", mkRat 1 16, 0, 0, false, "draft", none, none⟩],
    nextPk := 2 }

/-- Form data with a product whose catalog price is zero and no submitted
price: the input falsifying claim C8's "exactly when". -/
def zeroPriceForm : ItemFormData := ⟨some 7, some 1, none⟩

/-- The deep copies the conversion loop makes of a list of source line-item
field triples, keyed from `basePk` up, attached to invoice `invPk`. -/
def copiesFrom (invPk : Nat) : Nat → List (Nat × Rat × Rat) → List InvoiceItemRec
  | _, [] => []
  | basePk, (i, q, p) :: rest =>
    ⟨basePk, invPk, i, q, p, round2 (qmul q p)⟩ :: copiesFrom invPk (basePk + 1) rest

/-- The `(productRef, quantity, unitPrice)` field triples of a list of
line items. -/
def invTriples (l : List InvoiceItemRec) : List (Nat × Rat × Rat) :=
  l.map (fun it => (it.item, it.quantity, it.price_per_item))

def delTriples (l : List DeliveryItemRec) : List (Nat × Rat × Rat) :=
  l.map (fun it => (it.item, it.quantity, it.price_per_item))

/-- A store holding one invoice numbered `I9999`, at the invoice generator's
wrap boundary. -/
def dbInvoiceAtMax : DB :=
  { emptyDB with
    invoices := [⟨1, some "I9999", 4, "0711", 0, 0, 0, false, "draft", none, none⟩],
    nextPk := 2 }

/-- A store whose highest invoice number and delivery number both have
unparsable suffixes. -/
def dbBadSuffix : DB :=
  { emptyDB with
    invoices := [⟨1, some "IXXXX", 4, "0711", 0, 0, 0, false, "draft", none, none⟩],
    deliveries := [⟨2, some "DLXXXXX", 4, "0711", "draft", none⟩],
    nextPk := 3 }

/-- A persisted invoice with no line items and a 2-decimal shipping of 5. -/
def dbNoItems : DB :=
  { emptyDB with
    invoices := [⟨1, some "I0001", 4, "0711", 5, 1, 2, false, "draft", none, none⟩],
    nextPk := 2 }

/-- A store with one unconverted delivery (two line items) and one proforma
(one line item), used to witness the conversion theorems. -/
def dbWitness : DB :=
  { emptyDB with
    invoices := [⟨1, some "P0001", 4, "0711", 5, 30, 35, true, "sent", none, none⟩],
    invoiceItems := [⟨2, 1, 11, 3, 10, 30⟩],
    deliveries := [⟨3, some "DL00001", 6, "0722", "dispatched", none⟩],
    deliveryItems := [⟨4, 3, 21, 3, 10, 30⟩, ⟨5, 3, 22, 2, mkRat 15 2, 15⟩],
    nextPk := 6 }

theorem qadd_eq (a b : Rat) : qadd a b = a + b := (Rat.add_def' a b).symm

theorem qmul_eq (a b : Rat) : qmul a b = a * b := by
  rw [Rat.mul_def, Rat.normalize_eq_mkRat]; rfl

theorem find?_map_upd {α : Type} (key : α → Nat) (f : α → α) (k : Nat)
    (hf : ∀ r, key r = k → key (f r) = k) :
    ∀ l : List α,
      (l.map (fun r => if key r == k then f r else r)).find? (fun r => key r == k)
        = (l.find? (fun r => key r == k)).map f
  | [] => rfl
  | r :: rs => by
    simp only [List.map_cons]
    by_cases h : (key r == k) = true
    · have h1 : ((fun x => key x == k) (f r)) = true := by
        show (key (f r) == k) = true
        simp only [beq_iff_eq] at h ⊢
        exact hf r h
      rw [if_pos h, List.find?_cons_of_pos (p := fun x => key x == k) _ h1,
        List.find?_cons_of_pos (p := fun x => key x == k) _ h, Option.map_some']
    · rw [if_neg h, List.find?_cons_of_neg (p := fun x => key x == k) _ h,
        List.find?_cons_of_neg (p := fun x => key x == k) _ h]
      exact find?_map_upd key f k hf rs

theorem updInvoice_find (db : DB) (k : Nat) (f : InvoiceRec → InvoiceRec)
    (hf : ∀ r, r.pk = k → (f r).pk = k) :
    findInvoice (updInvoice db k f) k = (findInvoice db k).map f :=
  find?_map_upd (fun r : InvoiceRec => r.pk) f k hf db.invoices

theorem updDelivery_find (db : DB) (k : Nat) (f : DeliveryRec → DeliveryRec)
    (hf : ∀ r, r.pk = k → (f r).pk = k) :
    findDelivery (updDelivery db k f) k = (findDelivery db k).map f :=
  find?_map_upd (fun r : DeliveryRec => r.pk) f k hf db.deliveries

theorem findInvoice_pk (db : DB) (k : Nat) (r : InvoiceRec)
    (h : findInvoice db k = some r) : r.pk = k := by
  have := List.find?_some h
  simpa using this

theorem findInvoice_mem (db : DB) (k : Nat) (r : InvoiceRec)
    (h : findInvoice db k = some r) : r ∈ db.invoices :=
  List.mem_of_find?_eq_some h

theorem findDelivery_pk (db : DB) (k : Nat) (r : DeliveryRec)
    (h : findDelivery db k = some r) : r.pk = k := by
  have := List.find?_some h
  simpa using this

theorem any_congr {α : Type} (l : List α) (p q : α → Bool)
    (h : ∀ a ∈ l, p a = q a) : l.any p = l.any q := by
  induction l with
  | nil => rfl
  | cons a as ih =>
    simp only [List.any_cons, h a (List.mem_cons_self a as),
      ih (fun x hx => h x (List.mem_cons_of_mem a hx))]

theorem update_totals_of_none (db : DB) (k : Nat) (h : findInvoice db k = none) :
    update_invoice_totals db k = db := by
  unfold update_invoice_totals; rw [h]

theorem update_totals_of_some (db : DB) (k : Nat) (inv : InvoiceRec)
    (h : findInvoice db k = some inv) :
    update_invoice_totals db k =
      updInvoice db k (fun r =>
        { r with total := calcTotal db k, grand_total := calcGrand db k inv }) := by
  unfold update_invoice_totals; rw [h]

theorem updInvoice_items (db : DB) (k : Nat) (f : InvoiceRec → InvoiceRec) (j : Nat) :
    itemsOf (updInvoice db k f) j = itemsOf db j := rfl

theorem updInvoice_comp (db : DB) (k : Nat) (f g : InvoiceRec → InvoiceRec)
    (hf : ∀ r, r.pk = k → (f r).pk = k) :
    updInvoice (updInvoice db k f) k g = updInvoice db k (fun r => g (f r)) := by
  unfold updInvoice
  simp only [List.map_map]
  congr 1
  apply List.map_congr_left
  intro r _
  by_cases h : r.pk = k
  · simp [Function.comp_apply, h, hf r h]
  · simp [Function.comp_apply, h]

theorem update_totals_shape (db : DB) (k : Nat) :
    ∃ t g, update_invoice_totals db k = { db with invoices := setTotals db.invoices k t g } := by
  cases h : findInvoice db k with
  | none =>
    refine ⟨0, 0, ?_⟩
    rw [update_totals_of_none db k h]
    have hall : ∀ r ∈ db.invoices, ¬ ((r.pk == k) = true) :=
      List.find?_eq_none.mp h
    have : setTotals db.invoices k 0 0 = db.invoices := by
      unfold setTotals
      have := List.map_congr_left (l := db.invoices)
        (f := fun r => if r.pk == k then { r with total := 0, grand_total := 0 } else r)
        (g := id) (fun r hr => by simp [hall r hr])
      simpa using this
    rw [this]
  | some inv =>
    exact ⟨_, _, update_totals_of_some db k inv h⟩

theorem update_totals_idem (db : DB) (k : Nat) :
    update_invoice_totals (update_invoice_totals db k) k = update_invoice_totals db k := by
  cases h : findInvoice db k with
  | none =>
    rw [update_totals_of_none db k h, update_totals_of_none db k h]
  | some inv =>
    rw [update_totals_of_some db k inv h]
    have hf : ∀ r : InvoiceRec, r.pk = k →
        (({ r with total := calcTotal db k, grand_total := calcGrand db k inv } : InvoiceRec)).pk = k :=
      fun r hr => hr
    have hfind2 := updInvoice_find db k _ hf
    rw [h] at hfind2
    rw [update_totals_of_some _ k _ hfind2]
    rw [updInvoice_comp db k _ _ hf]
    rfl

theorem totals_consistent_after_update (db : DB) (k : Nat) :
    totalsConsistent (update_invoice_totals db k) k := by
  cases h : findInvoice db k with
  | none =>
    rw [update_totals_of_none db k h]
    intro r hr
    rw [h] at hr; cases hr
  | some inv =>
    rw [update_totals_of_some db k inv h]
    intro r hr
    have hf : ∀ x : InvoiceRec, x.pk = k →
        (({ x with total := calcTotal db k, grand_total := calcGrand db k inv } : InvoiceRec)).pk = k :=
      fun x hx => hx
    rw [updInvoice_find db k _ hf, h, Option.map_some'] at hr
    have hr' := (Option.some.injEq _ _).mp hr
    subst hr'
    constructor
    · rfl
    · show calcGrand db k inv = round2 (calcTotal db k + inv.shipping)
      unfold calcGrand
      rw [qadd_eq]

theorem numberUnset_some (s : String) (h : s ≠ "") : numberUnset (some s) = false := by
  simp [numberUnset, h]

theorem invNumberClash_false (db : DB) (inv2 : InvoiceRec)
    (h : ∀ r ∈ db.invoices, r.pk ≠ inv2.pk → r.invoice_number ≠ inv2.invoice_number) :
    invNumberClash db inv2 = false := by
  unfold invNumberClash
  rw [List.any_eq_false]
  intro r hr
  simp only [decide_eq_true_eq, not_and]
  intro h1 _ h3
  exact h r hr h1 h3

theorem invoiceResave_ok (db : DB) (k : Nat) (inv : InvoiceRec)
    (hfind : findInvoice db k = some inv)
    (hset : numberUnset inv.invoice_number = false)
    (hclash : invNumberClash db
      ({ inv with total := calcTotal db k, grand_total := calcGrand db k inv }) = false) :
    invoiceResave db k =
      .ok (updInvoice db k (fun _ =>
        { inv with total := calcTotal db k, grand_total := calcGrand db k inv })) := by
  unfold invoiceResave
  rw [hfind]
  dsimp only
  rw [hset]
  simp only [Bool.false_eq_true, if_false, hclash]

theorem invoiceResave_spec (db : DB) (k : Nat) (inv : InvoiceRec) (s : String)
    (hfind : findInvoice db k = some inv)
    (hnum : inv.invoice_number = some s) (hne : s ≠ "")
    (huniq : ∀ r ∈ db.invoices, r.pk ≠ k → r.invoice_number ≠ some s) :
    invoiceResave db k =
      .ok (updInvoice db k (fun _ =>
        { inv with total := calcTotal db k, grand_total := calcGrand db k inv })) ∧
    totalsConsistent (updInvoice db k (fun _ =>
      { inv with total := calcTotal db k, grand_total := calcGrand db k inv })) k := by
  have hpk := findInvoice_pk db k inv hfind
  have hset : numberUnset inv.invoice_number = false := by
    rw [hnum]; exact numberUnset_some s hne
  have hclash : invNumberClash db
      ({ inv with total := calcTotal db k, grand_total := calcGrand db k inv }) = false := by
    apply invNumberClash_false
    intro r hr hrpk
    have hk : r.pk ≠ k := by
      intro hcon
      exact hrpk (by simpa [hpk] using hcon)
    simpa [hnum] using huniq r hr hk
  refine ⟨invoiceResave_ok db k inv hfind hset hclash, ?_⟩
  intro r hr
  rw [updInvoice_find db k
      (fun _ => { inv with total := calcTotal db k, grand_total := calcGrand db k inv })
      (fun _ _ => hpk), hfind, Option.map_some'] at hr
  have hr' := (Option.some.injEq _ _).mp hr
  subst hr'
  constructor
  · rfl
  · show calcGrand db k inv = round2 (calcTotal db k + inv.shipping)
    unfold calcGrand
    rw [qadd_eq]

theorem addInvoiceItem_eq (db : DB) (invPk itemRef : Nat) (q p : Rat) (inv : InvoiceRec)
    (hfind : findInvoice db invPk = some inv) :
    addInvoiceItem db invPk itemRef q p =
      (match invoiceResave (update_invoice_totals { db with invoiceItems := db.invoiceItems ++ [⟨db.nextPk, invPk, itemRef, q, p, round2 (qmul q p)⟩], nextPk := db.nextPk + 1 } invPk) invPk with
       | .error e => .error e
       | .ok db3 => .ok (db3, db.nextPk)) := by
  unfold addInvoiceItem
  rw [hfind]

theorem updInvoice_forall (db : DB) (k : Nat) (f : InvoiceRec → InvoiceRec)
    (hpk : ∀ r, (f r).pk = r.pk) (hnum : ∀ r, (f r).invoice_number = r.invoice_number)
    (P : Nat → Option String → Prop)
    (h : ∀ r ∈ db.invoices, P r.pk r.invoice_number) :
    ∀ r ∈ (updInvoice db k f).invoices, P r.pk r.invoice_number := by
  intro r' hr'
  unfold updInvoice at hr'
  simp only [List.mem_map] at hr'
  obtain ⟨r, hr, hmap⟩ := hr'
  subst hmap
  by_cases hc : (r.pk == k) = true
  · rw [if_pos hc, hpk, hnum]
    exact h r hr
  · rw [if_neg hc]
    exact h r hr

theorem totals_pipeline (db : DB) (k : Nat) (inv : InvoiceRec) (s : String)
    (hfind : findInvoice db k = some inv)
    (hnum : inv.invoice_number = some s) (hne : s ≠ "")
    (huniq : ∀ r ∈ db.invoices, r.pk ≠ k → r.invoice_number ≠ some s) :
    ∃ db', invoiceResave (update_invoice_totals db k) k = .ok db' ∧
      totalsConsistent db' k := by
  rw [update_totals_of_some db k inv hfind]
  have hpk1 : ∀ r : InvoiceRec, r.pk = k →
      (({ r with total := calcTotal db k, grand_total := calcGrand db k inv } : InvoiceRec)).pk = k :=
    fun _ hr => hr
  have hfind2 : findInvoice (updInvoice db k (fun r =>
      { r with total := calcTotal db k, grand_total := calcGrand db k inv })) k =
      some ({ inv with total := calcTotal db k, grand_total := calcGrand db k inv }) := by
    rw [updInvoice_find db k _ hpk1, hfind, Option.map_some']
  have huniq2 : ∀ r ∈ (updInvoice db k (fun r =>
      { r with total := calcTotal db k, grand_total := calcGrand db k inv })).invoices,
      r.pk ≠ k → r.invoice_number ≠ some s :=
    updInvoice_forall db k
      (fun r => { r with total := calcTotal db k, grand_total := calcGrand db k inv })
      (fun _ => rfl) (fun _ => rfl)
      (fun pk num => pk ≠ k → num ≠ some s) huniq
  obtain ⟨hok, hcons⟩ := invoiceResave_spec _ k _ s hfind2 hnum hne huniq2
  exact ⟨_, hok, hcons⟩

theorem updateInvoiceItem_eq (db : DB) (itemPk : Nat) (q p : Rat) (it0 : InvoiceItemRec)
    (hfind : findItem db itemPk = some it0) :
    updateInvoiceItem db itemPk q p =
      invoiceResave (update_invoice_totals { db with invoiceItems := db.invoiceItems.map (fun r => if r.pk == itemPk then { it0 with quantity := q, price_per_item := p, total_price := round2 (qmul q p) } else r) } it0.invoice) it0.invoice := by
  unfold updateInvoiceItem
  rw [hfind]

theorem deleteInvoiceItem_eq (db : DB) (itemPk : Nat) (it0 : InvoiceItemRec)
    (hfind : findItem db itemPk = some it0) :
    deleteInvoiceItem db itemPk =
      update_invoice_totals { db with invoiceItems := db.invoiceItems.filter (fun r => r.pk ≠ itemPk) } it0.invoice := by
  unfold deleteInvoiceItem
  rw [hfind]

/-- **C1.** After adding, updating or removing a line item of a persisted,
uniquely numbered invoice, the stored `total` is the 2-decimal-rounded sum
of the invoice's line-item totals and the stored `grand_total` is the
2-decimal-rounded `total + shipping`. -/
theorem line_item_mutations_keep_totals (db : DB) (invPk : Nat) (inv : InvoiceRec) (s : String)
    (hfind : findInvoice db invPk = some inv)
    (hnum : inv.invoice_number = some s) (hne : s ≠ "")
    (huniq : ∀ r ∈ db.invoices, r.pk ≠ invPk → r.invoice_number ≠ some s) :
    (∀ itemRef q p, ∃ db' itPk,
      addInvoiceItem db invPk itemRef q p = .ok (db', itPk) ∧ totalsConsistent db' invPk) ∧
    (∀ itemPk it0 q p, findItem db itemPk = some it0 → it0.invoice = invPk →
      ∃ db', updateInvoiceItem db itemPk q p = .ok db' ∧ totalsConsistent db' invPk) ∧
    (∀ itemPk it0, findItem db itemPk = some it0 → it0.invoice = invPk →
      totalsConsistent (deleteInvoiceItem db itemPk) invPk) := by
  refine ⟨?_, ?_, ?_⟩
  · intro itemRef q p
    have hfind1 : findInvoice { db with invoiceItems := db.invoiceItems ++ [⟨db.nextPk, invPk, itemRef, q, p, round2 (qmul q p)⟩], nextPk := db.nextPk + 1 } invPk = some inv := hfind
    obtain ⟨db', hok, hcons⟩ := totals_pipeline _ invPk inv s hfind1 hnum hne huniq
    refine ⟨db', db.nextPk, ?_, hcons⟩
    rw [addInvoiceItem_eq db invPk itemRef q p inv hfind, hok]
  · intro itemPk it0 q p hit hinv
    subst hinv
    have hfind1 : findInvoice { db with invoiceItems := db.invoiceItems.map (fun r => if r.pk == itemPk then { it0 with quantity := q, price_per_item := p, total_price := round2 (qmul q p) } else r) } it0.invoice = some inv := hfind
    obtain ⟨db', hok, hcons⟩ := totals_pipeline _ it0.invoice inv s hfind1 hnum hne huniq
    refine ⟨db', ?_, hcons⟩
    rw [updateInvoiceItem_eq db itemPk q p it0 hit, hok]
  · intro itemPk it0 hit hinv
    subst hinv
    rw [deleteInvoiceItem_eq db itemPk it0 hit]
    exact totals_consistent_after_update _ it0.invoice

/-- **C9.** `update_invoice_totals` writes only the two total columns of the
target invoice (all line items, both delivery tables, the key counter and
every other invoice field are untouched), and running it a second time on
the resulting state changes nothing; being a `queryset.update()` it fires no
signals, so it cannot re-trigger item side effects or cascade into itself. -/
theorem recompute_totals_frame_and_idempotent (db : DB) (k : Nat) :
    (∃ t g, update_invoice_totals db k = { db with invoices := setTotals db.invoices k t g }) ∧
    update_invoice_totals (update_invoice_totals db k) k = update_invoice_totals db k :=
  ⟨update_totals_shape db k, update_totals_idem db k⟩

/-- **C10.** `convert_to_invoice` on a regular (non-proforma) invoice returns
that same document with the store unchanged: no new document, no link, no
status change. -/
theorem convert_non_proforma_noop (db : DB) (k : Nat) (inv : InvoiceRec)
    (hfind : findInvoice db k = some inv) (hnp : inv.is_proforma = false) :
    invoiceConvert db k = .ok (db, k) := by
  unfold invoiceConvert
  simp only [hfind, hnp]
  simp

theorem convert_non_proforma_noop_witness :
    invoiceConvert dbConvertedProforma 2 = .ok (dbConvertedProforma, 2) :=
  convert_non_proforma_noop dbConvertedProforma 2
    ⟨2, some "I0001", 4, "0711", 0, 0, 0, false, "draft", none, none⟩
    (by decide) (by decide)

/-- **C7.** When the suffix of the highest existing number cannot be parsed
as an integer, each generator returns `prefix` followed by 1 zero-padded to
its width instead of raising. -/
theorem unparsable_suffix_fallback :
    (∀ (db : DB) (pfx m : String),
      maxStr? (invoiceNumbersWith db pfx) = some m → pyInt (strDrop m 1) = none →
      get_next_invoice_number db pfx = pfx ++ "0001") ∧
    (∀ (db : DB) (m : String),
      maxStr? (db.deliveries.filterMap (fun r => r.delivery_number)) = some m →
      pyInt (strDrop m 2) = none →
      get_next_delivery_number db = "DL00001") := by
  constructor
  · intro db pfx m hmax hparse
    unfold get_next_invoice_number
    simp only [hmax, hparse]
  · intro db m hmax hparse
    have hne : db.deliveries.isEmpty = false := by
      cases hd : db.deliveries with
      | nil => rw [hd] at hmax; cases hmax
      | cons a l => rfl
    unfold get_next_delivery_number
    simp only [hne, hmax, hparse, Bool.false_eq_true, if_false]

theorem unparsable_suffix_fallback_witness :
    get_next_invoice_number dbBadSuffix "I" = "I" ++ "0001" ∧
    get_next_delivery_number dbBadSuffix = "DL00001" :=
  ⟨unparsable_suffix_fallback.1 dbBadSuffix "I" "IXXXX" (by decide) (by decide),
   unparsable_suffix_fallback.2 dbBadSuffix "DLXXXXX" (by decide) (by decide)⟩

/-- **C5, counterexample.** The claim's wrap-around applies to every
generator, but `get_next_delivery_number` (width 5) has no wrap check: with
`DL99999` stored it yields `DL100000`, not `DL00001`. -/
theorem delivery_number_no_wrap_cex :
    get_next_delivery_number dbDeliveryAtMax = "DL100000" ∧
    "DL100000" ≠ "DL00001" := by decide

/-- **C5, amended.** The invoice generator (width 4) does wrap: whenever
incrementing the highest parsed suffix would exceed 9999 the counter resets
to 1 (after `I9999` comes `I0001`); the delivery generator (width 5) never
wraps and simply formats the incremented suffix. -/
theorem numbering_wrap_behavior :
    (∀ (db : DB) (pfx m : String) (n : Int),
      maxStr? (invoiceNumbersWith db pfx) = some m → pyInt (strDrop m 1) = some n →
      n + 1 > 9999 → get_next_invoice_number db pfx = pfx ++ "0001") ∧
    (∀ (db : DB) (m : String) (n : Int),
      maxStr? (db.deliveries.filterMap (fun r => r.delivery_number)) = some m →
      pyInt (strDrop m 2) = some n →
      get_next_delivery_number db = "DL" ++ padInt 5 (n + 1)) := by
  constructor
  · intro db pfx m n hmax hparse hgt
    unfold get_next_invoice_number
    simp only [hmax, hparse]
    rw [if_pos hgt]
    exact congrArg (fun s => pfx ++ s) (by decide)
  · intro db m n hmax hparse
    have hne : db.deliveries.isEmpty = false := by
      cases hd : db.deliveries with
      | nil => rw [hd] at hmax; cases hmax
      | cons a l => rfl
    unfold get_next_delivery_number
    simp only [hne, hmax, hparse, Bool.false_eq_true, if_false]

theorem numbering_wrap_behavior_witness :
    get_next_invoice_number dbInvoiceAtMax "I" = "I" ++ "0001" ∧
    get_next_delivery_number dbDeliveryAtMax = "DL" ++ padInt 5 (99999 + 1) :=
  ⟨numbering_wrap_behavior.1 dbInvoiceAtMax "I" "I9999" 9999 (by decide) (by decide) (by decide),
   numbering_wrap_behavior.2 dbDeliveryAtMax "DL99999" 99999 (by decide) (by decide)⟩

theorem calcTotal_nil (db : DB) (k : Nat) (h : itemsOf db k = []) :
    calcTotal db k = 0 := by
  unfold calcTotal
  rw [h]
  decide

theorem calcGrand_nil (db : DB) (k : Nat) (inv : InvoiceRec) (h : itemsOf db k = []) :
    calcGrand db k inv = round2 inv.shipping := by
  unfold calcGrand
  rw [calcTotal_nil db k h, qadd_eq, zero_add]

/-- **C6, counterexample.** A persisted invoice with no line items and
shipping `1/16` (an exact float) recomputes to `grand_total = 0.06 ≠ 1/16`:
the stored grand total is `round(shipping, 2)`, not `shipping`. -/
theorem zero_items_grand_total_cex :
    (invoiceResave dbOddShipping 1).map
        (fun d => (findInvoice d 1).map (fun r => (r.total, r.grand_total, r.shipping)))
      = .ok (some (0, mkRat 3 50, mkRat 1 16)) ∧
    mkRat 3 50 ≠ mkRat 1 16 := by decide

/-- **C6, amended.** Re-saving a persisted, uniquely numbered invoice with no
line items stores `total = 0` and `grand_total = round2 shipping` (equal to
the shipping cost exactly when that is a 2-decimal amount), and a document
being created (no identity yet) short-circuits to `total = 0`,
`grand_total = 0` without querying items. -/
theorem zero_items_totals :
    (∀ (db : DB) (k : Nat) (inv : InvoiceRec) (s : String),
      findInvoice db k = some inv → itemsOf db k = [] →
      inv.invoice_number = some s → s ≠ "" →
      (∀ r ∈ db.invoices, r.pk ≠ k → r.invoice_number ≠ some s) →
      invoiceResave db k =
        .ok (updInvoice db k (fun _ =>
          { inv with total := 0, grand_total := round2 inv.shipping }))) ∧
    (∀ (db : DB) (c : Nat) (ct : String) (sh : Rat) (isP : Bool) (st : String)
        (ds : Option Nat),
      invNumberClash db (newInvoiceRow db c ct sh isP st ds) = false →
      createInvoice db c ct sh isP st ds =
        .ok ({ db with invoices := db.invoices ++ [newInvoiceRow db c ct sh isP st ds], nextPk := db.nextPk + 1 }, db.nextPk) ∧
      (newInvoiceRow db c ct sh isP st ds).total = 0 ∧
      (newInvoiceRow db c ct sh isP st ds).grand_total = 0) := by
  constructor
  · intro db k inv s hfind hitems hnum hne huniq
    have hok := (invoiceResave_spec db k inv s hfind hnum hne huniq).1
    rw [calcTotal_nil db k hitems, calcGrand_nil db k inv hitems] at hok
    exact hok
  · intro db c ct sh isP st ds hc
    refine ⟨?_, rfl, rfl⟩
    unfold createInvoice
    simp only [hc, Bool.false_eq_true, if_false]

theorem zero_items_totals_witness :
    invoiceResave dbNoItems 1 =
      .ok (updInvoice dbNoItems 1 (fun _ =>
        ⟨1, some "I0001", 4, "0711", 5, 0, round2 5, false, "draft", none, none⟩)) ∧
    (newInvoiceRow emptyDB 4 "0711" 5 false "draft" none).total = 0 ∧
    (newInvoiceRow emptyDB 4 "0711" 5 false "draft" none).grand_total = 0 :=
  ⟨zero_items_totals.1 dbNoItems 1
      ⟨1, some "I0001", 4, "0711", 5, 1, 2, false, "draft", none, none⟩ "I0001"
      (by decide) rfl rfl (by decide) (by decide),
   (zero_items_totals.2 emptyDB 4 "0711" 5 false "draft" none (by decide)).2⟩

/-- **C8, counterexample.** With a catalog price of 0 and no submitted price,
`clean` raises (`Valid price is required`) although the claim's condition —
quantity ≤ 0, unit price < 0, or a missing required field — does not hold:
the defaulted price 0 is not below 0 and nothing is missing. -/
theorem item_form_zero_price_cex :
    itemFormClean (fun _ => 0) zeroPriceForm = .error "Valid price is required" ∧
    specItemFormError (fun _ => 0) zeroPriceForm = false := by decide

/-- **C8, amended.** `InvoiceItemForm.clean` raises a `ValidationError`
exactly when the item is missing, the quantity is missing or ≤ 0, or the
effective unit price — defaulted from the catalog when absent or zero — is
missing, negative, **or zero**; the form is pure, so nothing is persisted on
failure. -/
theorem item_form_validation_iff (catalogPrice : Nat → Rat) (d : ItemFormData) :
    (itemFormClean catalogPrice d).isOk = false ↔
      codeItemFormError catalogPrice d = true := by
  have hiff : ∀ x : Rat, (x = 0 ∨ x < 0) ↔ x ≤ 0 := by
    intro x
    constructor
    · rintro (h | h)
      · exact le_of_eq h
      · exact le_of_lt h
    · intro h
      rcases lt_or_eq_of_le h with h' | h'
      · exact Or.inr h'
      · exact Or.inl h'
  rcases d with ⟨i, q, p⟩
  cases i with
  | none =>
    cases p <;>
      simp [itemFormClean, codeItemFormError, effectivePrice, Except.isOk, Except.toBool]
  | some i0 =>
    cases q with
    | none =>
      cases p with
      | none =>
        simp [itemFormClean, codeItemFormError, effectivePrice, Except.isOk, Except.toBool]
      | some p0 =>
        by_cases hp : p0 = 0 <;>
          simp [itemFormClean, codeItemFormError, effectivePrice, Except.isOk, Except.toBool, hp]
    | some q0 =>
      by_cases hq : q0 ≤ 0
      · cases p with
        | none =>
          simp [itemFormClean, codeItemFormError, effectivePrice, Except.isOk, Except.toBool, hq]
        | some p0 =>
          by_cases hp : p0 = 0 <;>
            simp [itemFormClean, codeItemFormError, effectivePrice, Except.isOk, Except.toBool,
              hp, hq]
      · cases p with
        | none =>
          by_cases hcat : catalogPrice i0 ≤ 0 <;>
            simp [itemFormClean, codeItemFormError, effectivePrice, Except.isOk, Except.toBool,
              hq, hcat, hiff]
        | some p0 =>
          by_cases hp : p0 = 0
          · by_cases hcat : catalogPrice i0 ≤ 0 <;>
              simp [itemFormClean, codeItemFormError, effectivePrice, Except.isOk, Except.toBool,
                hq, hp, hcat, hiff]
          · by_cases hneg : p0 ≤ 0
            · have hlt : p0 < 0 := lt_of_le_of_ne hneg hp
              simp [itemFormClean, codeItemFormError, effectivePrice, Except.isOk, Except.toBool,
                hq, hp, hneg, hlt]
            · have hnlt : ¬ p0 < 0 := fun hl => hneg (le_of_lt hl)
              simp [itemFormClean, codeItemFormError, effectivePrice, Except.isOk, Except.toBool,
                hq, hp, hneg, hnlt]

theorem item_form_validation_iff_witness :
    (itemFormClean (fun _ => 25) ⟨some 7, some 1, none⟩).isOk = true := by
  have h := item_form_validation_iff (fun _ => 25) ⟨some 7, some 1, none⟩
  have hcond : codeItemFormError (fun _ => 25) ⟨some 7, some 1, none⟩ = false := by decide
  cases hok : (itemFormClean (fun _ => 25) (⟨some 7, some 1, none⟩ : ItemFormData)).isOk with
  | false => rw [hok] at h; rw [h.mp rfl] at hcond; cases hcond
  | true => rfl

theorem line_item_mutations_keep_totals_witness :
    totalsConsistent (deleteInvoiceItem dbWitness 2) 1 :=
  (line_item_mutations_keep_totals dbWitness 1
      ⟨1, some "P0001", 4, "0711", 5, 30, 35, true, "sent", none, none⟩ "P0001"
      (by decide) rfl (by decide) (by decide)).2.2 2 ⟨2, 1, 11, 3, 10, 30⟩ (by decide) rfl

/-- **C2, counterexample.** The proforma conversion has no `converted_to_invoice`
guard: on a proforma whose link is already set to invoice 2, calling
`convert_to_invoice` is not a no-op — it builds and returns a brand-new third
invoice and re-points the link at it. -/
theorem proforma_convert_not_idempotent_cex :
    (findInvoice dbConvertedProforma 1).map (fun r => r.converted_to_invoice)
      = some (some 2) ∧
    (invoiceConvert dbConvertedProforma 1).map (fun x => x.2) = .ok 3 ∧
    (3 : Nat) ≠ 2 ∧
    (invoiceConvert dbConvertedProforma 1).map (fun x => x.1.invoices.length) = .ok 3 := by
  decide

theorem const_upd_comp (l : List InvoiceRec) (k : Nat) (c1 c2 : InvoiceRec)
    (h1 : c1.pk = k) :
    (l.map (fun r => if r.pk == k then c1 else r)).map
        (fun r => if r.pk == k then c2 else r)
      = l.map (fun r => if r.pk == k then c2 else r) := by
  rw [List.map_map]
  apply List.map_congr_left
  intro r _
  by_cases h : r.pk = k
  · simp [Function.comp_apply, h, h1]
  · simp [Function.comp_apply, h]

theorem upd_map_id (l : List InvoiceRec) (k : Nat) (f : InvoiceRec → InvoiceRec)
    (h : ∀ r ∈ l, r.pk ≠ k) :
    l.map (fun r => if r.pk == k then f r else r) = l := by
  have := List.map_congr_left (l := l)
    (f := fun r => if r.pk == k then f r else r) (g := id)
    (fun r hr => by simp [h r hr])
  simpa using this

theorem updInvoice_forall2 (db : DB) (k : Nat) (f : InvoiceRec → InvoiceRec)
    (P : Nat → Option String → Prop)
    (h : ∀ r ∈ db.invoices, P r.pk r.invoice_number)
    (hf : ∀ r ∈ db.invoices, P (f r).pk (f r).invoice_number) :
    ∀ r ∈ (updInvoice db k f).invoices, P r.pk r.invoice_number := by
  intro r' hr'
  unfold updInvoice at hr'
  simp only [List.mem_map] at hr'
  obtain ⟨r, hr, hmap⟩ := hr'
  subst hmap
  by_cases hc : (r.pk == k) = true
  · rw [if_pos hc]
    exact hf r hr
  · rw [if_neg hc]
    exact h r hr

theorem invNumberClash_false_forall (db : DB) (c : InvoiceRec) (num : String)
    (hc : invNumberClash db c = false) (hnum : c.invoice_number = some num) :
    ∀ r ∈ db.invoices, r.pk ≠ c.pk → r.invoice_number ≠ some num := by
  intro r hr hpk heq
  unfold invNumberClash at hc
  rw [List.any_eq_false] at hc
  exact hc r hr (by simp [hpk, heq, hnum])

theorem copiesFrom_invoice (invPk : Nat) :
    ∀ (b : Nat) (src : List (Nat × Rat × Rat)), ∀ it ∈ copiesFrom invPk b src, it.invoice = invPk := by
  intro b src
  induction src generalizing b with
  | nil => intro it hit; cases hit
  | cons hd tl ih =>
    obtain ⟨i, q, p⟩ := hd
    intro it hit
    rcases List.mem_cons.mp hit with h | h
    · subst h; rfl
    · exact ih (b + 1) it h

theorem copiesFrom_pk_ge (invPk : Nat) :
    ∀ (b : Nat) (src : List (Nat × Rat × Rat)), ∀ it ∈ copiesFrom invPk b src, b ≤ it.pk := by
  intro b src
  induction src generalizing b with
  | nil => intro it hit; cases hit
  | cons hd tl ih =>
    obtain ⟨i, q, p⟩ := hd
    intro it hit
    rcases List.mem_cons.mp hit with h | h
    · subst h; exact Nat.le_refl _
    · exact Nat.le_trans (Nat.le_succ b) (ih (b + 1) it h)

theorem invTriples_copiesFrom (invPk : Nat) :
    ∀ (b : Nat) (src : List (Nat × Rat × Rat)), invTriples (copiesFrom invPk b src) = src := by
  intro b src
  induction src generalizing b with
  | nil => rfl
  | cons hd tl ih =>
    obtain ⟨i, q, p⟩ := hd
    show (i, q, p) :: invTriples (copiesFrom invPk (b + 1) tl) = (i, q, p) :: tl
    rw [ih (b + 1)]

theorem copiesFrom_length (invPk : Nat) :
    ∀ (b : Nat) (src : List (Nat × Rat × Rat)), (copiesFrom invPk b src).length = src.length := by
  intro b src
  induction src generalizing b with
  | nil => rfl
  | cons hd tl ih =>
    obtain ⟨i, q, p⟩ := hd
    show (copiesFrom invPk (b + 1) tl).length + 1 = tl.length + 1
    rw [ih (b + 1)]

theorem forall_upd_rows (l : List InvoiceRec) (k : Nat) (f : InvoiceRec → InvoiceRec)
    (P : InvoiceRec → Prop)
    (h : ∀ r ∈ l, P r) (hf : ∀ r ∈ l, P (f r)) :
    ∀ r ∈ l.map (fun r => if r.pk == k then f r else r), P r := by
  intro r' hr'
  simp only [List.mem_map] at hr'
  obtain ⟨r, hr, hmap⟩ := hr'
  subst hmap
  by_cases hc : (r.pk == k) = true
  · rw [if_pos hc]; exact hf r hr
  · rw [if_neg hc]; exact h r hr

theorem pipeline_shape (db : DB) (k : Nat) (r0 : InvoiceRec) (num : String)
    (hfind : findInvoice db k = some r0)
    (hnum : r0.invoice_number = some num) (hne : num ≠ "")
    (huniq : ∀ r ∈ db.invoices, r.pk ≠ k → r.invoice_number ≠ some num) :
    ∃ t g,
      invoiceResave (update_invoice_totals db k) k =
        .ok { db with invoices := db.invoices.map (fun r =>
          if r.pk == k then { r0 with total := t, grand_total := g } else r) } ∧
      totalsConsistent { db with invoices := db.invoices.map (fun r =>
        if r.pk == k then { r0 with total := t, grand_total := g } else r) } k := by
  rw [update_totals_of_some db k r0 hfind]
  have hfset : ∀ r : InvoiceRec, r.pk = k →
      (({ r with total := calcTotal db k, grand_total := calcGrand db k r0 } : InvoiceRec)).pk = k :=
    fun _ h => h
  have hfind2 : findInvoice (updInvoice db k (fun r =>
      { r with total := calcTotal db k, grand_total := calcGrand db k r0 })) k =
      some ({ r0 with total := calcTotal db k, grand_total := calcGrand db k r0 }) := by
    rw [updInvoice_find db k (fun r =>
      { r with total := calcTotal db k, grand_total := calcGrand db k r0 }) hfset, hfind,
      Option.map_some']
  have huniq2 := updInvoice_forall db k (fun r =>
      { r with total := calcTotal db k, grand_total := calcGrand db k r0 })
    (fun _ => rfl) (fun _ => rfl) (fun pk numb => pk ≠ k → numb ≠ some num) huniq
  obtain ⟨hok, hcons⟩ := invoiceResave_spec _ k _ num hfind2 hnum hne huniq2
  have hcomp := updInvoice_comp db k
    (fun r => { r with total := calcTotal db k, grand_total := calcGrand db k r0 })
    (fun _ => { { r0 with total := calcTotal db k, grand_total := calcGrand db k r0 } with
      total := calcTotal (updInvoice db k (fun r =>
        { r with total := calcTotal db k, grand_total := calcGrand db k r0 })) k,
      grand_total := calcGrand (updInvoice db k (fun r =>
        { r with total := calcTotal db k, grand_total := calcGrand db k r0 })) k
        ({ r0 with total := calcTotal db k, grand_total := calcGrand db k r0 }) })
    hfset
  rw [hcomp] at hok hcons
  exact ⟨_, _, hok, hcons⟩

theorem addInvoiceItem_spec (db : DB) (newPk itemRef : Nat) (q p : Rat)
    (r0 : InvoiceRec) (num : String)
    (hfind : findInvoice db newPk = some r0)
    (hnum : r0.invoice_number = some num) (hne : num ≠ "")
    (huniq : ∀ r ∈ db.invoices, r.pk ≠ newPk → r.invoice_number ≠ some num) :
    ∃ t g, addInvoiceItem db newPk itemRef q p =
      .ok (⟨db.invoices.map (fun r =>
              if r.pk == newPk then { r0 with total := t, grand_total := g } else r),
            db.invoiceItems ++ [⟨db.nextPk, newPk, itemRef, q, p, round2 (qmul q p)⟩],
            db.deliveries, db.deliveryItems, db.nextPk + 1⟩, db.nextPk) := by
  obtain ⟨t, g, hok, _⟩ := pipeline_shape
    { db with invoiceItems := db.invoiceItems ++ [⟨db.nextPk, newPk, itemRef, q, p, round2 (qmul q p)⟩], nextPk := db.nextPk + 1 }
    newPk r0 num hfind hnum hne huniq
  refine ⟨t, g, ?_⟩
  rw [addInvoiceItem_eq db newPk itemRef q p r0 hfind, hok]

theorem convTail_spec (src : List (Nat × Rat × Rat)) (db : DB) (newPk : Nat)
    (r0 : InvoiceRec) (num : String)
    (hfind : findInvoice db newPk = some r0)
    (hnum : r0.invoice_number = some num) (hne : num ≠ "")
    (huniq : ∀ r ∈ db.invoices, r.pk ≠ newPk → r.invoice_number ≠ some num) :
    ∃ t g dbF,
      (match copyItemsLoop db newPk src with
       | Except.error e => Except.error e
       | Except.ok db2 => invoiceResave db2 newPk) = Except.ok dbF ∧
      dbF = ⟨db.invoices.map (fun r =>
               if r.pk == newPk then { r0 with total := t, grand_total := g } else r),
             db.invoiceItems ++ copiesFrom newPk db.nextPk src,
             db.deliveries, db.deliveryItems, db.nextPk + src.length⟩ ∧
      totalsConsistent dbF newPk := by
  induction src generalizing db r0 with
  | nil =>
    obtain ⟨hok, hcons⟩ := invoiceResave_spec db newPk r0 num hfind hnum hne huniq
    refine ⟨calcTotal db newPk, calcGrand db newPk r0, _, hok, ?_, hcons⟩
    show updInvoice db newPk _ = _
    unfold updInvoice
    congr 1
    exact (List.append_nil _).symm
  | cons hd tl ih =>
    obtain ⟨i, q, p⟩ := hd
    have hpk0 : r0.pk = newPk := findInvoice_pk db newPk r0 hfind
    obtain ⟨tA, gA, hadd⟩ := addInvoiceItem_spec db newPk i q p r0 num hfind hnum hne huniq
    have hfindA : findInvoice
        (⟨db.invoices.map (fun r =>
            if r.pk == newPk then { r0 with total := tA, grand_total := gA } else r),
          db.invoiceItems ++ [⟨db.nextPk, newPk, i, q, p, round2 (qmul q p)⟩],
          db.deliveries, db.deliveryItems, db.nextPk + 1⟩ : DB) newPk =
        some ({ r0 with total := tA, grand_total := gA }) := by
      show (db.invoices.map (fun r =>
          if r.pk == newPk then { r0 with total := tA, grand_total := gA } else r)).find?
          (fun r => r.pk == newPk) = _
      rw [find?_map_upd (fun r : InvoiceRec => r.pk)
          (fun _ => { r0 with total := tA, grand_total := gA }) newPk (fun _ _ => hpk0)
          db.invoices]
      rw [show db.invoices.find? (fun r => r.pk == newPk) = some r0 from hfind,
        Option.map_some']
    have huniqA : ∀ r ∈ ((⟨db.invoices.map (fun r =>
            if r.pk == newPk then { r0 with total := tA, grand_total := gA } else r),
          db.invoiceItems ++ [⟨db.nextPk, newPk, i, q, p, round2 (qmul q p)⟩],
          db.deliveries, db.deliveryItems, db.nextPk + 1⟩ : DB)).invoices,
        r.pk ≠ newPk → r.invoice_number ≠ some num :=
      forall_upd_rows db.invoices newPk
        (fun _ => { r0 with total := tA, grand_total := gA })
        (fun r => r.pk ≠ newPk → r.invoice_number ≠ some num)
        huniq (fun r _ hcon => absurd hpk0 hcon)
    obtain ⟨t, g, dbF, hconv, hshape, hcons⟩ := ih
      (⟨db.invoices.map (fun r =>
          if r.pk == newPk then { r0 with total := tA, grand_total := gA } else r),
        db.invoiceItems ++ [⟨db.nextPk, newPk, i, q, p, round2 (qmul q p)⟩],
        db.deliveries, db.deliveryItems, db.nextPk + 1⟩ : DB)
      ({ r0 with total := tA, grand_total := gA }) hfindA hnum huniqA
    refine ⟨t, g, dbF, ?_, ?_, hcons⟩
    · have hloop : copyItemsLoop db newPk ((i, q, p) :: tl) =
          copyItemsLoop (⟨db.invoices.map (fun r =>
              if r.pk == newPk then { r0 with total := tA, grand_total := gA } else r),
            db.invoiceItems ++ [⟨db.nextPk, newPk, i, q, p, round2 (qmul q p)⟩],
            db.deliveries, db.deliveryItems, db.nextPk + 1⟩ : DB) newPk tl := by
        show (match addInvoiceItem db newPk i q p with
              | Except.error e => Except.error e
              | Except.ok (db1, _) => copyItemsLoop db1 newPk tl) = _
        rw [hadd]
      rw [hloop]
      exact hconv
    · rw [hshape]
      congr 1
      · show (db.invoices.map (fun r =>
            if r.pk == newPk then { r0 with total := tA, grand_total := gA } else r)).map
            (fun r => if r.pk == newPk then { r0 with total := t, grand_total := g } else r)
            = db.invoices.map (fun r =>
              if r.pk == newPk then { r0 with total := t, grand_total := g } else r)
        exact const_upd_comp db.invoices newPk _ _ hpk0
      · show (db.invoiceItems ++ [⟨db.nextPk, newPk, i, q, p, round2 (qmul q p)⟩]) ++
            copiesFrom newPk (db.nextPk + 1) tl =
            db.invoiceItems ++ copiesFrom newPk db.nextPk ((i, q, p) :: tl)
        rw [List.append_assoc]
        rfl
      · show db.nextPk + 1 + tl.length = db.nextPk + ((i, q, p) :: tl).length
        show db.nextPk + 1 + tl.length = db.nextPk + (tl.length + 1)
        omega

theorem get_next_append (db : DB) (pfx : String) :
    ∃ s, get_next_invoice_number db pfx = pfx ++ s := by
  unfold get_next_invoice_number
  cases hmax : maxStr? (invoiceNumbersWith db pfx) with
  | none => exact ⟨"0001", by simp only [hmax]⟩
  | some m =>
    cases hp : pyInt (strDrop m 1) with
    | none => exact ⟨"0001", by simp only [hmax, hp]⟩
    | some n =>
      refine ⟨padInt 4 (if n + 1 > 9999 then 1 else n + 1), ?_⟩
      simp only [hmax, hp]

theorem str_append_ne_empty (a b : String) (h : a ≠ "") : a ++ b ≠ "" := by
  intro hcon
  apply h
  have hd := congrArg String.data hcon
  rw [String.data_append] at hd
  have ha : a.data = [] := (List.append_eq_nil.mp hd).1
  cases a with
  | mk l =>
    have : l = [] := ha
    rw [this]

theorem get_next_ne_empty (db : DB) (pfx : String) (h : pfx ≠ "") :
    get_next_invoice_number db pfx ≠ "" := by
  obtain ⟨s, hs⟩ := get_next_append db pfx
  rw [hs]
  exact str_append_ne_empty pfx s h

theorem createInvoice_spec (db : DB) (c : Nat) (ct : String) (sh : Rat) (isP : Bool)
    (st : String) (ds : Option Nat)
    (hclash : invNumberClash db (newInvoiceRow db c ct sh isP st ds) = false)
    (hpk : ∀ r ∈ db.invoices, r.pk ≠ db.nextPk) :
    createInvoice db c ct sh isP st ds =
      .ok (⟨db.invoices ++ [newInvoiceRow db c ct sh isP st ds],
            db.invoiceItems, db.deliveries, db.deliveryItems, db.nextPk + 1⟩, db.nextPk) ∧
    findInvoice ⟨db.invoices ++ [newInvoiceRow db c ct sh isP st ds],
        db.invoiceItems, db.deliveries, db.deliveryItems, db.nextPk + 1⟩ db.nextPk =
      some (newInvoiceRow db c ct sh isP st ds) := by
  constructor
  · unfold createInvoice
    simp only [hclash, Bool.false_eq_true, if_false]
  · show (db.invoices ++ [newInvoiceRow db c ct sh isP st ds]).find?
        (fun r => r.pk == db.nextPk) = _
    rw [List.find?_append]
    have hnone : db.invoices.find? (fun r => r.pk == db.nextPk) = none :=
      List.find?_eq_none.mpr (fun r hr => by simp [hpk r hr])
    rw [hnone]
    show ([newInvoiceRow db c ct sh isP st ds].find? (fun r => r.pk == db.nextPk)) = _
    rw [List.find?_cons_of_pos (p := fun r : InvoiceRec => r.pk == db.nextPk) _ (by simp [newInvoiceRow])]

theorem updDelivery_comp (db : DB) (k : Nat) (f g : DeliveryRec → DeliveryRec)
    (hf : ∀ r, r.pk = k → (f r).pk = k) :
    updDelivery (updDelivery db k f) k g = updDelivery db k (fun r => g (f r)) := by
  unfold updDelivery
  simp only [List.map_map]
  congr 1
  apply List.map_congr_left
  intro r _
  by_cases h : r.pk = k
  · simp [Function.comp_apply, h, hf r h]
  · simp [Function.comp_apply, h]

theorem delNumberClash_false (db : DB) (d2 : DeliveryRec)
    (h : ∀ r ∈ db.deliveries, r.pk ≠ d2.pk → r.delivery_number ≠ d2.delivery_number) :
    delNumberClash db d2 = false := by
  unfold delNumberClash
  rw [List.any_eq_false]
  intro r hr
  simp only [decide_eq_true_eq, not_and]
  intro h1 _ h3
  exact h r hr h1 h3

theorem forall_upd_del_rows (l : List DeliveryRec) (k : Nat) (f : DeliveryRec → DeliveryRec)
    (P : DeliveryRec → Prop)
    (h : ∀ r ∈ l, P r) (hf : ∀ r ∈ l, P (f r)) :
    ∀ r ∈ l.map (fun r => if r.pk == k then f r else r), P r := by
  intro r' hr'
  simp only [List.mem_map] at hr'
  obtain ⟨r, hr, hmap⟩ := hr'
  subst hmap
  by_cases hc : (r.pk == k) = true
  · rw [if_pos hc]; exact hf r hr
  · rw [if_neg hc]; exact h r hr

theorem deliveryResave_ok (db : DB) (k : Nat) (d : DeliveryRec)
    (hfind : findDelivery db k = some d)
    (hset : numberUnset d.delivery_number = false)
    (hclash : delNumberClash db d = false) :
    deliveryResave db k = .ok (updDelivery db k (fun _ => d)) := by
  unfold deliveryResave
  rw [hfind]
  dsimp only
  rw [hset]
  simp only [Bool.false_eq_true, if_false, hclash]

theorem upd_map_append (l : List InvoiceRec) (x : InvoiceRec) (k : Nat) (c : InvoiceRec)
    (hl : ∀ r ∈ l, r.pk ≠ k) (hx : x.pk = k) :
    (l ++ [x]).map (fun r => if r.pk == k then c else r) = l ++ [c] := by
  rw [List.map_append, upd_map_id l k _ hl]
  simp [hx]

theorem deliveryConvert_spec (db : DB) (k : Nat) (d : DeliveryRec) (dn : String)
    (hfindD : findDelivery db k = some d)
    (hlink : d.converted_to_invoice = none)
    (hdn : d.delivery_number = some dn) (hdn' : dn ≠ "")
    (hduniq : ∀ r ∈ db.deliveries, r.pk ≠ k → r.delivery_number ≠ some dn)
    (hpkI : ∀ r ∈ db.invoices, r.pk ≠ db.nextPk)
    (hclash : invNumberClash db
      (newInvoiceRow db d.customer_name d.contact_number 0 false "draft" (some k)) = false) :
    ∃ t g,
      deliveryConvert db k = .ok
        (⟨db.invoices ++ [{ newInvoiceRow db d.customer_name d.contact_number 0 false "draft" (some k) with total := t, grand_total := g }],
          db.invoiceItems ++ copiesFrom db.nextPk (db.nextPk + 1)
            ((deliveryItemsOf db k).map (fun it => (it.item, it.quantity, it.price_per_item))),
          db.deliveries.map (fun r => if r.pk == k then
            { d with converted_to_invoice := some db.nextPk, status := "delivered" } else r),
          db.deliveryItems,
          db.nextPk + 1 + ((deliveryItemsOf db k).map (fun it => (it.item, it.quantity, it.price_per_item))).length⟩,
         db.nextPk) ∧
      totalsConsistent
        ⟨db.invoices ++ [{ newInvoiceRow db d.customer_name d.contact_number 0 false "draft" (some k) with total := t, grand_total := g }],
          db.invoiceItems ++ copiesFrom db.nextPk (db.nextPk + 1)
            ((deliveryItemsOf db k).map (fun it => (it.item, it.quantity, it.price_per_item))),
          db.deliveries.map (fun r => if r.pk == k then
            { d with converted_to_invoice := some db.nextPk, status := "delivered" } else r),
          db.deliveryItems,
          db.nextPk + 1 + ((deliveryItemsOf db k).map (fun it => (it.item, it.quantity, it.price_per_item))).length⟩
        db.nextPk := by
  have hdpk : d.pk = k := findDelivery_pk db k d hfindD
  obtain ⟨hcreate, hfindC⟩ :=
    createInvoice_spec db d.customer_name d.contact_number 0 false "draft" (some k) hclash hpkI
  have hneC : get_next_invoice_number db "I" ≠ "" := get_next_ne_empty db "I" (by decide)
  have huniqC : ∀ r ∈ ((⟨db.invoices ++ [newInvoiceRow db d.customer_name d.contact_number 0 false "draft" (some k)], db.invoiceItems, db.deliveries, db.deliveryItems, db.nextPk + 1⟩ : DB)).invoices,
      r.pk ≠ db.nextPk → r.invoice_number ≠ some (get_next_invoice_number db "I") := by
    intro r hr hrpk
    rcases List.mem_append.mp hr with h | h
    · exact invNumberClash_false_forall db _ _ hclash rfl r h hrpk
    · have := List.mem_singleton.mp h
      subst this
      exact absurd rfl hrpk
  obtain ⟨t, g, dbF, hconv, hshape, hcons⟩ := convTail_spec
    ((deliveryItemsOf db k).map (fun it => (it.item, it.quantity, it.price_per_item)))
    (⟨db.invoices ++ [newInvoiceRow db d.customer_name d.contact_number 0 false "draft" (some k)], db.invoiceItems, db.deliveries, db.deliveryItems, db.nextPk + 1⟩ : DB)
    db.nextPk (newInvoiceRow db d.customer_name d.contact_number 0 false "draft" (some k))
    (get_next_invoice_number db "I") hfindC rfl hneC huniqC
  refine ⟨t, g, ?_⟩
  cases hloop : copyItemsLoop
      (⟨db.invoices ++ [newInvoiceRow db d.customer_name d.contact_number 0 false "draft" (some k)], db.invoiceItems, db.deliveries, db.deliveryItems, db.nextPk + 1⟩ : DB)
      db.nextPk
      ((deliveryItemsOf db k).map (fun it => (it.item, it.quantity, it.price_per_item))) with
  | error e =>
    rw [hloop] at hconv
    exact absurd hconv (by simp)
  | ok db2 =>
    rw [hloop] at hconv
    have hconv2 : invoiceResave db2 db.nextPk = Except.ok dbF := hconv
    have hf2 : ∀ r : DeliveryRec, r.pk = k →
        ((fun r : DeliveryRec => { r with converted_to_invoice := some db.nextPk, status := "delivered" }) r).pk = k :=
      fun _ h => h
    have hfindF : findDelivery dbF k = some d := by
      rw [hshape]
      exact hfindD
    have hdelF : dbF.deliveries = db.deliveries := by
      rw [hshape]
    have hfind4 : findDelivery (updDelivery dbF k
        (fun r => { r with converted_to_invoice := some db.nextPk, status := "delivered" })) k =
        some ({ d with converted_to_invoice := some db.nextPk, status := "delivered" }) := by
      rw [updDelivery_find dbF k _ hf2, hfindF, Option.map_some']
    have hset4 : numberUnset (({ d with converted_to_invoice := some db.nextPk, status := "delivered" } : DeliveryRec)).delivery_number = false := by
      have hdd : (({ d with converted_to_invoice := some db.nextPk, status := "delivered" } : DeliveryRec)).delivery_number = some dn := hdn
      rw [hdd]
      exact numberUnset_some dn hdn'
    have hP : ∀ r ∈ db.deliveries,
        r.pk ≠ (({ d with converted_to_invoice := some db.nextPk, status := "delivered" } : DeliveryRec)).pk →
        r.delivery_number ≠ (({ d with converted_to_invoice := some db.nextPk, status := "delivered" } : DeliveryRec)).delivery_number := by
      intro r hr hrpk
      have hk' : r.pk ≠ k := fun hc => hrpk (hc.trans hdpk.symm)
      have hdd : (({ d with converted_to_invoice := some db.nextPk, status := "delivered" } : DeliveryRec)).delivery_number = some dn := hdn
      rw [hdd]
      exact hduniq r hr hk'
    have hclash4 : delNumberClash (updDelivery dbF k
        (fun r => { r with converted_to_invoice := some db.nextPk, status := "delivered" }))
        ({ d with converted_to_invoice := some db.nextPk, status := "delivered" }) = false := by
      apply delNumberClash_false
      show ∀ r ∈ dbF.deliveries.map (fun r => if r.pk == k then
          { r with converted_to_invoice := some db.nextPk, status := "delivered" } else r), _
      rw [hdelF]
      exact forall_upd_del_rows db.deliveries k
        (fun r => { r with converted_to_invoice := some db.nextPk, status := "delivered" })
        (fun r => r.pk ≠ (({ d with converted_to_invoice := some db.nextPk, status := "delivered" } : DeliveryRec)).pk →
          r.delivery_number ≠ (({ d with converted_to_invoice := some db.nextPk, status := "delivered" } : DeliveryRec)).delivery_number)
        hP (fun r hr => hP r hr)
    have hresave := deliveryResave_ok _ k _ hfind4 hset4 hclash4
    have hfin : updDelivery (updDelivery dbF k
        (fun r => { r with converted_to_invoice := some db.nextPk, status := "delivered" })) k
        (fun _ => { d with converted_to_invoice := some db.nextPk, status := "delivered" }) =
        ⟨db.invoices ++ [{ newInvoiceRow db d.customer_name d.contact_number 0 false "draft" (some k) with total := t, grand_total := g }],
          db.invoiceItems ++ copiesFrom db.nextPk (db.nextPk + 1)
            ((deliveryItemsOf db k).map (fun it => (it.item, it.quantity, it.price_per_item))),
          db.deliveries.map (fun r => if r.pk == k then
            { d with converted_to_invoice := some db.nextPk, status := "delivered" } else r),
          db.deliveryItems,
          db.nextPk + 1 + ((deliveryItemsOf db k).map (fun it => (it.item, it.quantity, it.price_per_item))).length⟩ := by
      rw [updDelivery_comp dbF k _ _ hf2, hshape]
      show (⟨_, _, _, _, _⟩ : DB) = _
      congr 1
      · rw [upd_map_append db.invoices
          (newInvoiceRow db d.customer_name d.contact_number 0 false "draft" (some k))
          db.nextPk _ hpkI rfl]
    constructor
    · unfold deliveryConvert
      simp only [hfindD, hlink, hcreate, hloop, hconv2]
      rw [hresave, hfin]
    · have h5 : totalsConsistent (updDelivery (updDelivery dbF k
          (fun r => { r with converted_to_invoice := some db.nextPk, status := "delivered" })) k
          (fun _ => { d with converted_to_invoice := some db.nextPk, status := "delivered" })) db.nextPk := hcons
      rw [hfin] at h5
      exact h5

theorem find?_map_upd_ne (k j : Nat) (f : InvoiceRec → InvoiceRec)
    (hne : k ≠ j) (hf : ∀ r, r.pk = j → (f r).pk = j) :
    ∀ l : List InvoiceRec,
      (l.map (fun r => if r.pk == j then f r else r)).find? (fun r => r.pk == k)
        = l.find? (fun r => r.pk == k)
  | [] => rfl
  | r :: rs => by
    simp only [List.map_cons]
    by_cases h : (r.pk == j) = true
    · have hj : r.pk = j := by simpa using h
      have hjk : ¬ j = k := fun hc => hne hc.symm
      have h1 : ¬ ((fun x : InvoiceRec => x.pk == k) (f r)) = true := by
        show ¬ ((f r).pk == k) = true
        simp [hf r hj, hjk]
      have h2 : ¬ ((fun x : InvoiceRec => x.pk == k) r) = true := by
        show ¬ (r.pk == k) = true
        simp [hj, hjk]
      rw [if_pos h, List.find?_cons_of_neg (p := fun x : InvoiceRec => x.pk == k) _ h1,
        List.find?_cons_of_neg (p := fun x : InvoiceRec => x.pk == k) _ h2]
      exact find?_map_upd_ne k j f hne hf rs
    · rw [if_neg h]
      by_cases h2 : (r.pk == k) = true
      · rw [List.find?_cons_of_pos (p := fun x : InvoiceRec => x.pk == k) _ h2,
          List.find?_cons_of_pos (p := fun x : InvoiceRec => x.pk == k) _ h2]
      · rw [List.find?_cons_of_neg (p := fun x : InvoiceRec => x.pk == k) _ h2,
          List.find?_cons_of_neg (p := fun x : InvoiceRec => x.pk == k) _ h2]
        exact find?_map_upd_ne k j f hne hf rs

theorem totalsConsistent_updInvoice_ne (db : DB) (j k : Nat) (f : InvoiceRec → InvoiceRec)
    (hne : k ≠ j) (hf : ∀ r, r.pk = j → (f r).pk = j)
    (h : totalsConsistent db k) : totalsConsistent (updInvoice db j f) k := by
  intro r hr
  have heq : findInvoice (updInvoice db j f) k = findInvoice db k :=
    find?_map_upd_ne k j f hne hf db.invoices
  rw [heq] at hr
  exact h r hr

theorem map_upd_two_keys (l : List InvoiceRec) (x : InvoiceRec) (j k : Nat)
    (cJ cK : InvoiceRec) (hjk : k ≠ j) (hx : x.pk = j) (hcJ : cJ.pk = j)
    (hl : ∀ r ∈ l, r.pk ≠ j) :
    ((l ++ [x]).map (fun r => if r.pk == j then cJ else r)).map
        (fun r => if r.pk == k then cK else r)
      = l.map (fun r => if r.pk == k then cK else r) ++ [cJ] := by
  rw [List.map_append, upd_map_id l j _ hl, List.map_append]
  congr 1
  show [if x.pk == j then cJ else x].map (fun r => if r.pk == k then cK else r) = [cJ]
  have h1 : (x.pk == j) = true := by simpa using hx
  rw [if_pos h1]
  have h2 : ¬ ((cJ.pk == k) = true) := by
    simp [hcJ]
    exact fun hc => hjk hc.symm
  show [if cJ.pk == k then cK else cJ] = [cJ]
  rw [if_neg h2]

theorem invoiceConvert_spec (db : DB) (k : Nat) (inv : InvoiceRec) (sp : String)
    (hfind : findInvoice db k = some inv)
    (hpro : inv.is_proforma = true)
    (hsn : inv.invoice_number = some sp) (hsne : sp ≠ "")
    (hsuniq : ∀ r ∈ db.invoices, r.pk ≠ k → r.invoice_number ≠ some sp)
    (hpkI : ∀ r ∈ db.invoices, r.pk ≠ db.nextPk)
    (hclash : invNumberClash db
      (newInvoiceRow db inv.customer_name inv.contact_number inv.shipping false "draft" none) = false) :
    ∃ t g t2 g2,
      invoiceConvert db k = .ok
        (⟨db.invoices.map (fun r => if r.pk == k then
            { inv with total := t2, grand_total := g2, status := "paid", converted_to_invoice := some db.nextPk } else r) ++
            [{ newInvoiceRow db inv.customer_name inv.contact_number inv.shipping false "draft" none with total := t, grand_total := g }],
          db.invoiceItems ++ copiesFrom db.nextPk (db.nextPk + 1)
            ((itemsOf db k).map (fun it => (it.item, it.quantity, it.price_per_item))),
          db.deliveries, db.deliveryItems,
          db.nextPk + 1 + ((itemsOf db k).map (fun it => (it.item, it.quantity, it.price_per_item))).length⟩,
         db.nextPk) ∧
      totalsConsistent
        ⟨db.invoices.map (fun r => if r.pk == k then
            { inv with total := t2, grand_total := g2, status := "paid", converted_to_invoice := some db.nextPk } else r) ++
            [{ newInvoiceRow db inv.customer_name inv.contact_number inv.shipping false "draft" none with total := t, grand_total := g }],
          db.invoiceItems ++ copiesFrom db.nextPk (db.nextPk + 1)
            ((itemsOf db k).map (fun it => (it.item, it.quantity, it.price_per_item))),
          db.deliveries, db.deliveryItems,
          db.nextPk + 1 + ((itemsOf db k).map (fun it => (it.item, it.quantity, it.price_per_item))).length⟩
        db.nextPk := by
  have hinvpk : inv.pk = k := findInvoice_pk db k inv hfind
  have hkne : k ≠ db.nextPk := by
    have := hpkI inv (findInvoice_mem db k inv hfind)
    rw [hinvpk] at this
    exact this
  obtain ⟨hcreate, hfindC⟩ :=
    createInvoice_spec db inv.customer_name inv.contact_number inv.shipping false "draft" none hclash hpkI
  have hneC : get_next_invoice_number db "I" ≠ "" := get_next_ne_empty db "I" (by decide)
  have huniqC : ∀ r ∈ ((⟨db.invoices ++ [newInvoiceRow db inv.customer_name inv.contact_number inv.shipping false "draft" none], db.invoiceItems, db.deliveries, db.deliveryItems, db.nextPk + 1⟩ : DB)).invoices,
      r.pk ≠ db.nextPk → r.invoice_number ≠ some (get_next_invoice_number db "I") := by
    intro r hr hrpk
    rcases List.mem_append.mp hr with h | h
    · exact invNumberClash_false_forall db _ _ hclash rfl r h hrpk
    · have := List.mem_singleton.mp h
      subst this
      exact absurd rfl hrpk
  obtain ⟨t, g, dbF, hconv, hshape, hcons⟩ := convTail_spec
    ((itemsOf db k).map (fun it => (it.item, it.quantity, it.price_per_item)))
    (⟨db.invoices ++ [newInvoiceRow db inv.customer_name inv.contact_number inv.shipping false "draft" none], db.invoiceItems, db.deliveries, db.deliveryItems, db.nextPk + 1⟩ : DB)
    db.nextPk (newInvoiceRow db inv.customer_name inv.contact_number inv.shipping false "draft" none)
    (get_next_invoice_number db "I") hfindC rfl hneC huniqC
  -- the source proforma's number differs from the freshly generated one
  have hspnum : sp ≠ get_next_invoice_number db "I" := by
    intro hcon
    have := invNumberClash_false_forall db
      (newInvoiceRow db inv.customer_name inv.contact_number inv.shipping false "draft" none)
      (get_next_invoice_number db "I") hclash rfl inv (findInvoice_mem db k inv hfind)
      (by rw [hinvpk]; exact hkne)
    rw [← hcon] at this
    exact this hsn
  cases hloop : copyItemsLoop
      (⟨db.invoices ++ [newInvoiceRow db inv.customer_name inv.contact_number inv.shipping false "draft" none], db.invoiceItems, db.deliveries, db.deliveryItems, db.nextPk + 1⟩ : DB)
      db.nextPk
      ((itemsOf db k).map (fun it => (it.item, it.quantity, it.price_per_item))) with
  | error e =>
    rw [hloop] at hconv
    exact absurd hconv (by simp)
  | ok db2 =>
    rw [hloop] at hconv
    have hconv2 : invoiceResave db2 db.nextPk = Except.ok dbF := hconv
    have hf3 : ∀ r : InvoiceRec, r.pk = k →
        ((fun r : InvoiceRec => { r with converted_to_invoice := some db.nextPk, status := "paid" }) r).pk = k :=
      fun _ h => h
    -- the source row is untouched by the copy phase
    have hfindF : findInvoice dbF k = some inv := by
      rw [hshape]
      show ((db.invoices ++ [newInvoiceRow db inv.customer_name inv.contact_number inv.shipping false "draft" none]).map _).find? (fun r => r.pk == k) = some inv
      rw [find?_map_upd_ne k db.nextPk _ hkne (fun _ _ => rfl), List.find?_append]
      rw [show db.invoices.find? (fun r => r.pk == k) = some inv from hfind]
      rfl
    -- after linking, re-save the source through invoiceResave_spec
    have hfind4 : findInvoice (updInvoice dbF k
        (fun r => { r with converted_to_invoice := some db.nextPk, status := "paid" })) k =
        some ({ inv with converted_to_invoice := some db.nextPk, status := "paid" }) := by
      rw [updInvoice_find dbF k _ hf3, hfindF, Option.map_some']
    have hbaseF : ∀ r ∈ dbF.invoices, r.pk ≠ k → r.invoice_number ≠ some sp := by
      rw [hshape]
      exact forall_upd_rows _ db.nextPk _ (fun r => r.pk ≠ k → r.invoice_number ≠ some sp)
        (by
          intro r hr
          rcases List.mem_append.mp hr with h | h
          · exact hsuniq r h
          · have := List.mem_singleton.mp h
            subst this
            intro _ hcon
            have : get_next_invoice_number db "I" = sp := by
              have := (Option.some.injEq _ _).mp hcon
              exact this
            exact hspnum this.symm)
        (by
          intro r _
          intro _ hcon
          have : get_next_invoice_number db "I" = sp := (Option.some.injEq _ _).mp hcon
          exact hspnum this.symm)
    have huniq4 : ∀ r ∈ (updInvoice dbF k
        (fun r => { r with converted_to_invoice := some db.nextPk, status := "paid" })).invoices,
        r.pk ≠ k → r.invoice_number ≠ some sp :=
      updInvoice_forall dbF k
        (fun r => { r with converted_to_invoice := some db.nextPk, status := "paid" })
        (fun _ => rfl) (fun _ => rfl)
        (fun pk numb => pk ≠ k → numb ≠ some sp) hbaseF
    obtain ⟨hok4, _⟩ := invoiceResave_spec
      (updInvoice dbF k (fun r => { r with converted_to_invoice := some db.nextPk, status := "paid" }))
      k ({ inv with converted_to_invoice := some db.nextPk, status := "paid" }) sp hfind4 hsn hsne huniq4
    have hfin : updInvoice (updInvoice dbF k
        (fun r => { r with converted_to_invoice := some db.nextPk, status := "paid" })) k
        (fun _ => { ({ inv with converted_to_invoice := some db.nextPk, status := "paid" } : InvoiceRec) with
          total := calcTotal (updInvoice dbF k (fun r => { r with converted_to_invoice := some db.nextPk, status := "paid" })) k,
          grand_total := calcGrand (updInvoice dbF k (fun r => { r with converted_to_invoice := some db.nextPk, status := "paid" })) k
            ({ inv with converted_to_invoice := some db.nextPk, status := "paid" }) }) =
        ⟨db.invoices.map (fun r => if r.pk == k then
            { inv with
              total := calcTotal (updInvoice dbF k (fun r => { r with converted_to_invoice := some db.nextPk, status := "paid" })) k,
              grand_total := calcGrand (updInvoice dbF k (fun r => { r with converted_to_invoice := some db.nextPk, status := "paid" })) k
                ({ inv with converted_to_invoice := some db.nextPk, status := "paid" }),
              status := "paid", converted_to_invoice := some db.nextPk } else r) ++
            [{ newInvoiceRow db inv.customer_name inv.contact_number inv.shipping false "draft" none with total := t, grand_total := g }],
          db.invoiceItems ++ copiesFrom db.nextPk (db.nextPk + 1)
            ((itemsOf db k).map (fun it => (it.item, it.quantity, it.price_per_item))),
          db.deliveries, db.deliveryItems,
          db.nextPk + 1 + ((itemsOf db k).map (fun it => (it.item, it.quantity, it.price_per_item))).length⟩ := by
      rw [updInvoice_comp dbF k _ _ hf3, hshape]
      dsimp only [updInvoice]
      rw [map_upd_two_keys db.invoices
        (newInvoiceRow db inv.customer_name inv.contact_number inv.shipping false "draft" none)
        db.nextPk k _ _ hkne rfl rfl hpkI]
    refine ⟨t, g,
      calcTotal (updInvoice dbF k (fun r => { r with converted_to_invoice := some db.nextPk, status := "paid" })) k,
      calcGrand (updInvoice dbF k (fun r => { r with converted_to_invoice := some db.nextPk, status := "paid" })) k
        ({ inv with converted_to_invoice := some db.nextPk, status := "paid" }), ?_, ?_⟩
    · unfold invoiceConvert
      simp only [hfind, hpro, eq_self_iff_true, not_true, if_false, ite_false, hcreate, hloop,
        hconv2]
      rw [hok4, hfin]
      simp only [hpro]
    · have h5 : totalsConsistent (updInvoice (updInvoice dbF k
          (fun r => { r with converted_to_invoice := some db.nextPk, status := "paid" })) k
          (fun _ => { ({ inv with converted_to_invoice := some db.nextPk, status := "paid" } : InvoiceRec) with
            total := calcTotal (updInvoice dbF k (fun r => { r with converted_to_invoice := some db.nextPk, status := "paid" })) k,
            grand_total := calcGrand (updInvoice dbF k (fun r => { r with converted_to_invoice := some db.nextPk, status := "paid" })) k
              ({ inv with converted_to_invoice := some db.nextPk, status := "paid" }) })) db.nextPk :=
        totalsConsistent_updInvoice_ne _ k db.nextPk _ (fun hc => hkne hc.symm)
          (fun _ _ => hinvpk)
          (totalsConsistent_updInvoice_ne dbF k db.nextPk _ (fun hc => hkne hc.symm)
            (fun _ hr => hr) hcons)
      rw [hfin] at h5
      exact h5

/-- C2 (amended): conversion is idempotent for delivery sources.  A delivery
whose `converted_to_invoice` link is already set short-circuits to the
existing target and leaves the store untouched, and converting an unconverted
delivery and then calling convert again yields the same target and the same
store both times — exactly one new invoice is created.  (The proforma path
has no such guard: see the counterexample.) -/
theorem delivery_convert_idempotent (db : DB) (k : Nat) (d : DeliveryRec) (dn : String)
    (hfindD : findDelivery db k = some d)
    (hlink : d.converted_to_invoice = none)
    (hdn : d.delivery_number = some dn) (hdn' : dn ≠ "")
    (hduniq : ∀ r ∈ db.deliveries, r.pk ≠ k → r.delivery_number ≠ some dn)
    (hpkI : ∀ r ∈ db.invoices, r.pk ≠ db.nextPk)
    (hclash : invNumberClash db
      (newInvoiceRow db d.customer_name d.contact_number 0 false "draft" (some k)) = false) :
    (∀ db' k' d' t, findDelivery db' k' = some d' → d'.converted_to_invoice = some t →
      deliveryConvert db' k' = .ok (db', t)) ∧
    ∃ db2, deliveryConvert db k = .ok (db2, db.nextPk) ∧
      deliveryConvert db2 k = .ok (db2, db.nextPk) ∧
      db2.invoices.length = db.invoices.length + 1 := by
  have hguard : ∀ db' k' d' t, findDelivery db' k' = some d' →
      d'.converted_to_invoice = some t → deliveryConvert db' k' = .ok (db', t) := by
    intro db' k' d' t hf hl
    unfold deliveryConvert
    simp only [hf, hl]
  refine ⟨hguard, ?_⟩
  have hdpk : d.pk = k := findDelivery_pk db k d hfindD
  obtain ⟨t, g, hconv, _⟩ :=
    deliveryConvert_spec db k d dn hfindD hlink hdn hdn' hduniq hpkI hclash
  refine ⟨_, hconv, ?_, ?_⟩
  · have hfind2 : findDelivery
        (⟨db.invoices ++ [{ newInvoiceRow db d.customer_name d.contact_number 0 false "draft" (some k) with total := t, grand_total := g }],
          db.invoiceItems ++ copiesFrom db.nextPk (db.nextPk + 1)
            ((deliveryItemsOf db k).map (fun it => (it.item, it.quantity, it.price_per_item))),
          db.deliveries.map (fun r => if r.pk == k then
            { d with converted_to_invoice := some db.nextPk, status := "delivered" } else r),
          db.deliveryItems,
          db.nextPk + 1 + ((deliveryItemsOf db k).map (fun it => (it.item, it.quantity, it.price_per_item))).length⟩ : DB) k =
        some ({ d with converted_to_invoice := some db.nextPk, status := "delivered" }) := by
      show (db.deliveries.map (fun r => if r.pk == k then
          { d with converted_to_invoice := some db.nextPk, status := "delivered" } else r)).find?
          (fun r => r.pk == k) = _
      rw [find?_map_upd (fun r : DeliveryRec => r.pk)
        (fun _ => { d with converted_to_invoice := some db.nextPk, status := "delivered" }) k
        (fun _ _ => hdpk) db.deliveries]
      rw [show db.deliveries.find? (fun r => r.pk == k) = some d from hfindD, Option.map_some']
    exact hguard _ k _ db.nextPk hfind2 rfl
  · show (db.invoices ++ [_]).length = db.invoices.length + 1
    simp

theorem delivery_convert_idempotent_witness :
    (∀ db' k' d' t, findDelivery db' k' = some d' → d'.converted_to_invoice = some t →
      deliveryConvert db' k' = .ok (db', t)) ∧
    ∃ db2, deliveryConvert dbWitness 3 = .ok (db2, dbWitness.nextPk) ∧
      deliveryConvert db2 3 = .ok (db2, dbWitness.nextPk) ∧
      db2.invoices.length = dbWitness.invoices.length + 1 :=
  delivery_convert_idempotent dbWitness 3 ⟨3, some "DL00001", 6, "0722", "dispatched", none⟩
    "DL00001" (by decide) (by decide) (by decide) (by decide) (by decide) (by decide) (by decide)

theorem filter_not_mem (invPk : Nat) :
    ∀ old : List InvoiceItemRec, (∀ it ∈ old, it.invoice ≠ invPk) →
      old.filter (fun r => r.invoice == invPk) = []
  | [], _ => rfl
  | r :: rs, h => by
    have hr : (r.invoice == invPk) = false := by
      simp only [beq_eq_false_iff_ne, ne_eq]
      exact h r (List.mem_cons_self r rs)
    simp only [List.filter, hr]
    exact filter_not_mem invPk rs (fun a ha => h a (List.mem_cons_of_mem r ha))

theorem filter_copies (invPk : Nat) :
    ∀ (b : Nat) (src : List (Nat × Rat × Rat)),
      (copiesFrom invPk b src).filter (fun r => r.invoice == invPk) = copiesFrom invPk b src
  | _, [] => rfl
  | b, (i, q, p) :: rest => by
    simp only [copiesFrom, List.filter, beq_self_eq_true]
    rw [filter_copies invPk (b + 1) rest]

theorem find?_append_fresh (x : InvoiceRec) (k : Nat) (hx : x.pk = k) :
    ∀ l : List InvoiceRec, (∀ r ∈ l, r.pk ≠ k) →
      (l ++ [x]).find? (fun r => r.pk == k) = some x
  | [], _ => by
    rw [List.nil_append]
    exact List.find?_cons_of_pos (p := fun r : InvoiceRec => r.pk == k) _ (by simp [hx])
  | r :: rs, hl => by
    have hr : ¬ ((r.pk == k) = true) := by
      simp only [beq_iff_eq]
      exact hl r (List.mem_cons_self r rs)
    rw [List.cons_append, List.find?_cons_of_neg (p := fun r : InvoiceRec => r.pk == k) _ hr]
    exact find?_append_fresh x k hx rs (fun a ha => hl a (List.mem_cons_of_mem r ha))

theorem find?_append_left (p : InvoiceRec → Bool) (a : InvoiceRec) :
    ∀ l1 l2 : List InvoiceRec, l1.find? p = some a → (l1 ++ l2).find? p = some a
  | [], _, h => by cases h
  | r :: rs, l2, h => by
    cases hp : p r with
    | true =>
      rw [List.find?_cons_of_pos _ hp] at h
      rw [List.cons_append, List.find?_cons_of_pos _ hp]
      exact h
    | false =>
      rw [List.find?_cons_of_neg _ (by simp [hp])] at h
      rw [List.cons_append, List.find?_cons_of_neg _ (by simp [hp])]
      exact find?_append_left p a rs l2 h

/-- C4: converting a document creates a new invoice copying customer and
contact info, with shipping copied from a proforma source but zero for a
delivery source; every source line item is deep-copied (fresh keys, same
product/quantity/unit price); the new invoice's totals are recomputed from
the copied items; the source is linked to the new invoice
(`converted_to_invoice`, plus `delivery_source` back-reference for
deliveries) and its status set to `'delivered'` (delivery) or `'paid'`
(proforma); the new invoice's number is drawn from the `"I"` partition. -/
theorem convert_document_effects (db : DB) (kD kP : Nat) (d : DeliveryRec) (inv : InvoiceRec)
    (dn sp : String)
    (hfindD : findDelivery db kD = some d)
    (hlinkD : d.converted_to_invoice = none)
    (hdn : d.delivery_number = some dn) (hdn' : dn ≠ "")
    (hduniq : ∀ r ∈ db.deliveries, r.pk ≠ kD → r.delivery_number ≠ some dn)
    (hfindP : findInvoice db kP = some inv)
    (hpro : inv.is_proforma = true)
    (hsn : inv.invoice_number = some sp) (hsne : sp ≠ "")
    (hsuniq : ∀ r ∈ db.invoices, r.pk ≠ kP → r.invoice_number ≠ some sp)
    (hpkI : ∀ r ∈ db.invoices, r.pk ≠ db.nextPk)
    (hold : ∀ it ∈ db.invoiceItems, it.invoice ≠ db.nextPk)
    (hfresh : ∀ it ∈ db.invoiceItems, it.pk < db.nextPk)
    (hclashD : invNumberClash db
      (newInvoiceRow db d.customer_name d.contact_number 0 false "draft" (some kD)) = false)
    (hclashP : invNumberClash db
      (newInvoiceRow db inv.customer_name inv.contact_number inv.shipping false "draft" none) = false) :
    (∃ db2 newRow d2,
      deliveryConvert db kD = .ok (db2, db.nextPk) ∧
      findInvoice db2 db.nextPk = some newRow ∧
      newRow.customer_name = d.customer_name ∧
      newRow.contact_number = d.contact_number ∧
      newRow.shipping = 0 ∧
      newRow.is_proforma = false ∧
      newRow.delivery_source = some kD ∧
      newRow.invoice_number = some (get_next_invoice_number db "I") ∧
      invTriples (itemsOf db2 db.nextPk) = delTriples (deliveryItemsOf db kD) ∧
      (∀ it ∈ itemsOf db2 db.nextPk, ∀ o ∈ db.invoiceItems, o.pk ≠ it.pk) ∧
      newRow.total = round2 (qsum ((itemsOf db2 db.nextPk).map (fun it => it.total_price))) ∧
      newRow.grand_total = round2 (newRow.total + newRow.shipping) ∧
      findDelivery db2 kD = some d2 ∧
      d2.converted_to_invoice = some db.nextPk ∧
      d2.status = "delivered") ∧
    (∃ db2 newRow s2,
      invoiceConvert db kP = .ok (db2, db.nextPk) ∧
      findInvoice db2 db.nextPk = some newRow ∧
      newRow.customer_name = inv.customer_name ∧
      newRow.contact_number = inv.contact_number ∧
      newRow.shipping = inv.shipping ∧
      newRow.is_proforma = false ∧
      newRow.invoice_number = some (get_next_invoice_number db "I") ∧
      invTriples (itemsOf db2 db.nextPk) = invTriples (itemsOf db kP) ∧
      (∀ it ∈ itemsOf db2 db.nextPk, ∀ o ∈ db.invoiceItems, o.pk ≠ it.pk) ∧
      newRow.total = round2 (qsum ((itemsOf db2 db.nextPk).map (fun it => it.total_price))) ∧
      newRow.grand_total = round2 (newRow.total + newRow.shipping) ∧
      findInvoice db2 kP = some s2 ∧
      s2.converted_to_invoice = some db.nextPk ∧
      s2.status = "paid") := by
  constructor
  · obtain ⟨t, g, hconv, hcons⟩ :=
      deliveryConvert_spec db kD d dn hfindD hlinkD hdn hdn' hduniq hpkI hclashD
    have hdpk : d.pk = kD := findDelivery_pk db kD d hfindD
    have hitems : itemsOf
        (⟨db.invoices ++ [{ newInvoiceRow db d.customer_name d.contact_number 0 false "draft" (some kD) with total := t, grand_total := g }],
          db.invoiceItems ++ copiesFrom db.nextPk (db.nextPk + 1)
            ((deliveryItemsOf db kD).map (fun it => (it.item, it.quantity, it.price_per_item))),
          db.deliveries.map (fun r => if r.pk == kD then
            { d with converted_to_invoice := some db.nextPk, status := "delivered" } else r),
          db.deliveryItems,
          db.nextPk + 1 + ((deliveryItemsOf db kD).map (fun it => (it.item, it.quantity, it.price_per_item))).length⟩ : DB)
        db.nextPk = copiesFrom db.nextPk (db.nextPk + 1)
          ((deliveryItemsOf db kD).map (fun it => (it.item, it.quantity, it.price_per_item))) := by
      show (db.invoiceItems ++ copiesFrom db.nextPk (db.nextPk + 1)
          ((deliveryItemsOf db kD).map (fun it => (it.item, it.quantity, it.price_per_item)))).filter
          (fun r => r.invoice == db.nextPk) = _
      rw [List.filter_append, filter_not_mem db.nextPk db.invoiceItems hold,
        filter_copies db.nextPk (db.nextPk + 1)
          ((deliveryItemsOf db kD).map (fun it => (it.item, it.quantity, it.price_per_item))),
        List.nil_append]
    have hfindNew : findInvoice
        (⟨db.invoices ++ [{ newInvoiceRow db d.customer_name d.contact_number 0 false "draft" (some kD) with total := t, grand_total := g }],
          db.invoiceItems ++ copiesFrom db.nextPk (db.nextPk + 1)
            ((deliveryItemsOf db kD).map (fun it => (it.item, it.quantity, it.price_per_item))),
          db.deliveries.map (fun r => if r.pk == kD then
            { d with converted_to_invoice := some db.nextPk, status := "delivered" } else r),
          db.deliveryItems,
          db.nextPk + 1 + ((deliveryItemsOf db kD).map (fun it => (it.item, it.quantity, it.price_per_item))).length⟩ : DB)
        db.nextPk = some ({ newInvoiceRow db d.customer_name d.contact_number 0 false "draft" (some kD) with total := t, grand_total := g }) :=
      find?_append_fresh _ db.nextPk rfl db.invoices hpkI
    have hfindD2 : findDelivery
        (⟨db.invoices ++ [{ newInvoiceRow db d.customer_name d.contact_number 0 false "draft" (some kD) with total := t, grand_total := g }],
          db.invoiceItems ++ copiesFrom db.nextPk (db.nextPk + 1)
            ((deliveryItemsOf db kD).map (fun it => (it.item, it.quantity, it.price_per_item))),
          db.deliveries.map (fun r => if r.pk == kD then
            { d with converted_to_invoice := some db.nextPk, status := "delivered" } else r),
          db.deliveryItems,
          db.nextPk + 1 + ((deliveryItemsOf db kD).map (fun it => (it.item, it.quantity, it.price_per_item))).length⟩ : DB)
        kD = some ({ d with converted_to_invoice := some db.nextPk, status := "delivered" }) := by
      show (db.deliveries.map (fun r => if r.pk == kD then
          { d with converted_to_invoice := some db.nextPk, status := "delivered" } else r)).find?
          (fun r => r.pk == kD) = _
      rw [find?_map_upd (fun r : DeliveryRec => r.pk)
        (fun _ => { d with converted_to_invoice := some db.nextPk, status := "delivered" }) kD
        (fun _ _ => hdpk) db.deliveries]
      rw [show db.deliveries.find? (fun r => r.pk == kD) = some d from hfindD, Option.map_some']
    refine ⟨_, _, _, hconv, hfindNew, rfl, rfl, rfl, rfl, rfl, rfl, ?_, ?_,
      (hcons _ hfindNew).1, (hcons _ hfindNew).2, hfindD2, rfl, rfl⟩
    · rw [hitems]
      exact invTriples_copiesFrom db.nextPk (db.nextPk + 1) _
    · intro it hit o ho
      rw [hitems] at hit
      have h1 := copiesFrom_pk_ge db.nextPk (db.nextPk + 1) _ it hit
      have h2 := hfresh o ho
      omega
  · obtain ⟨t, g, t2, g2, hconv, hcons⟩ :=
      invoiceConvert_spec db kP inv sp hfindP hpro hsn hsne hsuniq hpkI hclashP
    have hinvpk : inv.pk = kP := findInvoice_pk db kP inv hfindP
    have hmfresh : ∀ r ∈ db.invoices.map (fun r => if r.pk == kP then
        { inv with total := t2, grand_total := g2, status := "paid", converted_to_invoice := some db.nextPk } else r),
        r.pk ≠ db.nextPk := by
      intro r hr
      obtain ⟨r0, hr0, rfl⟩ := List.mem_map.mp hr
      cases hb : (r0.pk == kP) with
      | true =>
        simp only [hb, if_true]
        exact hpkI inv (findInvoice_mem db kP inv hfindP)
      | false =>
        simp only [hb, Bool.false_eq_true, if_false]
        exact hpkI r0 hr0
    have hitems : itemsOf
        (⟨db.invoices.map (fun r => if r.pk == kP then
            { inv with total := t2, grand_total := g2, status := "paid", converted_to_invoice := some db.nextPk } else r) ++
            [{ newInvoiceRow db inv.customer_name inv.contact_number inv.shipping false "draft" none with total := t, grand_total := g }],
          db.invoiceItems ++ copiesFrom db.nextPk (db.nextPk + 1)
            ((itemsOf db kP).map (fun it => (it.item, it.quantity, it.price_per_item))),
          db.deliveries, db.deliveryItems,
          db.nextPk + 1 + ((itemsOf db kP).map (fun it => (it.item, it.quantity, it.price_per_item))).length⟩ : DB)
        db.nextPk = copiesFrom db.nextPk (db.nextPk + 1)
          ((itemsOf db kP).map (fun it => (it.item, it.quantity, it.price_per_item))) := by
      show (db.invoiceItems ++ copiesFrom db.nextPk (db.nextPk + 1)
          ((itemsOf db kP).map (fun it => (it.item, it.quantity, it.price_per_item)))).filter
          (fun r => r.invoice == db.nextPk) = _
      rw [List.filter_append, filter_not_mem db.nextPk db.invoiceItems hold,
        filter_copies db.nextPk (db.nextPk + 1)
          ((itemsOf db kP).map (fun it => (it.item, it.quantity, it.price_per_item))),
        List.nil_append]
    have hfindNew : findInvoice
        (⟨db.invoices.map (fun r => if r.pk == kP then
            { inv with total := t2, grand_total := g2, status := "paid", converted_to_invoice := some db.nextPk } else r) ++
            [{ newInvoiceRow db inv.customer_name inv.contact_number inv.shipping false "draft" none with total := t, grand_total := g }],
          db.invoiceItems ++ copiesFrom db.nextPk (db.nextPk + 1)
            ((itemsOf db kP).map (fun it => (it.item, it.quantity, it.price_per_item))),
          db.deliveries, db.deliveryItems,
          db.nextPk + 1 + ((itemsOf db kP).map (fun it => (it.item, it.quantity, it.price_per_item))).length⟩ : DB)
        db.nextPk = some ({ newInvoiceRow db inv.customer_name inv.contact_number inv.shipping false "draft" none with total := t, grand_total := g }) :=
      find?_append_fresh _ db.nextPk rfl _ hmfresh
    have hfirst : (db.invoices.map (fun r => if r.pk == kP then
        { inv with total := t2, grand_total := g2, status := "paid", converted_to_invoice := some db.nextPk } else r)).find?
        (fun r => r.pk == kP) =
        some ({ inv with total := t2, grand_total := g2, status := "paid", converted_to_invoice := some db.nextPk }) := by
      rw [find?_map_upd (fun r : InvoiceRec => r.pk)
        (fun _ => { inv with total := t2, grand_total := g2, status := "paid", converted_to_invoice := some db.nextPk }) kP
        (fun _ _ => hinvpk) db.invoices]
      rw [show db.invoices.find? (fun r => r.pk == kP) = some inv from hfindP, Option.map_some']
    have hfindP2 : findInvoice
        (⟨db.invoices.map (fun r => if r.pk == kP then
            { inv with total := t2, grand_total := g2, status := "paid", converted_to_invoice := some db.nextPk } else r) ++
            [{ newInvoiceRow db inv.customer_name inv.contact_number inv.shipping false "draft" none with total := t, grand_total := g }],
          db.invoiceItems ++ copiesFrom db.nextPk (db.nextPk + 1)
            ((itemsOf db kP).map (fun it => (it.item, it.quantity, it.price_per_item))),
          db.deliveries, db.deliveryItems,
          db.nextPk + 1 + ((itemsOf db kP).map (fun it => (it.item, it.quantity, it.price_per_item))).length⟩ : DB)
        kP = some ({ inv with total := t2, grand_total := g2, status := "paid", converted_to_invoice := some db.nextPk }) :=
      find?_append_left _ _ _ _ hfirst
    refine ⟨_, _, _, hconv, hfindNew, rfl, rfl, rfl, rfl, rfl, ?_, ?_,
      (hcons _ hfindNew).1, (hcons _ hfindNew).2, hfindP2, rfl, rfl⟩
    · rw [hitems]
      exact invTriples_copiesFrom db.nextPk (db.nextPk + 1) _
    · intro it hit o ho
      rw [hitems] at hit
      have h1 := copiesFrom_pk_ge db.nextPk (db.nextPk + 1) _ it hit
      have h2 := hfresh o ho
      omega

theorem convert_document_effects_witness :
    (∃ db2 newRow d2,
      deliveryConvert dbWitness 3 = .ok (db2, dbWitness.nextPk) ∧
      findInvoice db2 dbWitness.nextPk = some newRow ∧
      newRow.customer_name = 6 ∧
      newRow.contact_number = "0722" ∧
      newRow.shipping = 0 ∧
      newRow.is_proforma = false ∧
      newRow.delivery_source = some 3 ∧
      newRow.invoice_number = some (get_next_invoice_number dbWitness "I") ∧
      invTriples (itemsOf db2 dbWitness.nextPk) = delTriples (deliveryItemsOf dbWitness 3) ∧
      (∀ it ∈ itemsOf db2 dbWitness.nextPk, ∀ o ∈ dbWitness.invoiceItems, o.pk ≠ it.pk) ∧
      newRow.total = round2 (qsum ((itemsOf db2 dbWitness.nextPk).map (fun it => it.total_price))) ∧
      newRow.grand_total = round2 (newRow.total + newRow.shipping) ∧
      findDelivery db2 3 = some d2 ∧
      d2.converted_to_invoice = some dbWitness.nextPk ∧
      d2.status = "delivered") ∧
    (∃ db2 newRow s2,
      invoiceConvert dbWitness 1 = .ok (db2, dbWitness.nextPk) ∧
      findInvoice db2 dbWitness.nextPk = some newRow ∧
      newRow.customer_name = 4 ∧
      newRow.contact_number = "0711" ∧
      newRow.shipping = 5 ∧
      newRow.is_proforma = false ∧
      newRow.invoice_number = some (get_next_invoice_number dbWitness "I") ∧
      invTriples (itemsOf db2 dbWitness.nextPk) = invTriples (itemsOf dbWitness 1) ∧
      (∀ it ∈ itemsOf db2 dbWitness.nextPk, ∀ o ∈ dbWitness.invoiceItems, o.pk ≠ it.pk) ∧
      newRow.total = round2 (qsum ((itemsOf db2 dbWitness.nextPk).map (fun it => it.total_price))) ∧
      newRow.grand_total = round2 (newRow.total + newRow.shipping) ∧
      findInvoice db2 1 = some s2 ∧
      s2.converted_to_invoice = some dbWitness.nextPk ∧
      s2.status = "paid") :=
  convert_document_effects dbWitness 3 1 ⟨3, some "DL00001", 6, "0722", "dispatched", none⟩
    ⟨1, some "P0001", 4, "0711", 5, 30, 35, true, "sent", none, none⟩ "DL00001" "P0001"
    (by decide) (by decide) (by decide) (by decide) (by decide) (by decide) (by decide)
    (by decide) (by decide) (by decide) (by decide) (by decide) (by decide) (by decide)
    (by decide)

theorem nodup_append_singleton {α : Type} (l : List α) (a : α)
    (h : l.Nodup) (ha : a ∉ l) : (l ++ [a]).Nodup := by
  refine List.Nodup.append h (List.nodup_singleton a) ?_
  intro x hx hx2
  rw [List.mem_singleton] at hx2
  exact ha (hx2 ▸ hx)

theorem map_pk_upd (k : Nat) (x : InvoiceRec) (hx : x.pk = k) :
    ∀ l : List InvoiceRec,
      (l.map (fun r => if r.pk == k then x else r)).map (fun r => r.pk)
        = l.map (fun r => r.pk)
  | [] => rfl
  | r :: l => by
    cases hb : (r.pk == k) with
    | true =>
      have hrk : r.pk = k := beq_iff_eq.mp hb
      simp only [List.map_cons, hb, if_true, map_pk_upd k x hx l]
      rw [hx, hrk]
    | false =>
      simp only [List.map_cons, hb, Bool.false_eq_true, if_false, map_pk_upd k x hx l]

theorem row_eq_of_pk (k : Nat) (inv : InvoiceRec) :
    ∀ l : List InvoiceRec, (l.map (fun r => r.pk)).Nodup →
      l.find? (fun r => r.pk == k) = some inv →
      ∀ r ∈ l, r.pk = k → r = inv
  | [], _, hf => by cases hf
  | a :: l, hnd, hf => by
    intro r hr hrk
    have hnd' : (a.pk :: l.map (fun r => r.pk)).Nodup := hnd
    cases hb : (a.pk == k) with
    | true =>
      rw [List.find?_cons_of_pos (p := fun r : InvoiceRec => r.pk == k) _ hb] at hf
      have ha : a = inv := Option.some.inj hf
      rcases List.mem_cons.mp hr with rfl | hr'
      · exact ha
      · exfalso
        have hak : a.pk = k := beq_iff_eq.mp hb
        have : a.pk ∈ l.map (fun r => r.pk) :=
          List.mem_map.mpr ⟨r, hr', by rw [hrk, hak]⟩
        exact (List.nodup_cons.mp hnd').1 this
    | false =>
      rw [List.find?_cons_of_neg (p := fun r : InvoiceRec => r.pk == k) _ (by simp [hb])] at hf
      rcases List.mem_cons.mp hr with rfl | hr'
      · exact absurd hrk (by simpa using hb)
      · exact row_eq_of_pk k inv l (List.nodup_cons.mp hnd').2 hf r hr' hrk

theorem filterMap_num_upd (k : Nat) (inv x : InvoiceRec)
    (hnum : x.invoice_number = inv.invoice_number) :
    ∀ l : List InvoiceRec, (∀ r ∈ l, r.pk = k → r = inv) →
      (l.map (fun r => if r.pk == k then x else r)).filterMap (fun r => r.invoice_number)
        = l.filterMap (fun r => r.invoice_number)
  | [], _ => rfl
  | r :: l, hl => by
    have ht := filterMap_num_upd k inv x hnum l
      (fun a ha hak => hl a (List.mem_cons_of_mem r ha) hak)
    cases hb : (r.pk == k) with
    | true =>
      have hr : r = inv := hl r (List.mem_cons_self r l) (beq_iff_eq.mp hb)
      simp only [List.map_cons, hb, if_true, List.filterMap_cons, ht]
      rw [hnum, hr]
    | false =>
      simp only [List.map_cons, hb, Bool.false_eq_true, if_false, List.filterMap_cons, ht]

theorem goodDB_empty : GoodDB emptyDB :=
  ⟨List.nodup_nil, fun r hr => absurd hr (List.not_mem_nil r),
   fun r hr => absurd hr (List.not_mem_nil r), List.nodup_nil⟩

theorem goodDB_upd_const (db : DB) (k : Nat) (inv x : InvoiceRec)
    (h : GoodDB db) (hf : findInvoice db k = some inv)
    (hpk2 : x.pk = inv.pk) (hnum2 : x.invoice_number = inv.invoice_number) :
    GoodDB (updInvoice db k (fun _ => x)) := by
  have hpk := findInvoice_pk db k inv hf
  have hmem := findInvoice_mem db k inv hf
  have hxk : x.pk = k := hpk2.trans hpk
  refine ⟨?_, ?_, ?_, ?_⟩
  · show ((db.invoices.map (fun r => if r.pk == k then x else r)).map (fun r => r.pk)).Nodup
    rw [map_pk_upd k x hxk db.invoices]
    exact h.1
  · intro r hr
    have hr' : r ∈ db.invoices.map (fun r => if r.pk == k then x else r) := hr
    show r.pk < db.nextPk
    obtain ⟨r0, hr0, rfl⟩ := List.mem_map.mp hr'
    cases hb : (r0.pk == k) with
    | true =>
      simp only [hb, if_true]
      rw [hpk2]
      exact h.2.1 inv hmem
    | false =>
      simp only [hb, Bool.false_eq_true, if_false]
      exact h.2.1 r0 hr0
  · intro r hr
    have hr' : r ∈ db.invoices.map (fun r => if r.pk == k then x else r) := hr
    obtain ⟨r0, hr0, rfl⟩ := List.mem_map.mp hr'
    cases hb : (r0.pk == k) with
    | true =>
      simp only [hb, if_true]
      rw [hnum2]
      exact h.2.2.1 inv hmem
    | false =>
      simp only [hb, Bool.false_eq_true, if_false]
      exact h.2.2.1 r0 hr0
  · show ((db.invoices.map (fun r => if r.pk == k then x else r)).filterMap
      (fun r => r.invoice_number)).Nodup
    rw [filterMap_num_upd k inv x hnum2 db.invoices (row_eq_of_pk k inv db.invoices h.1 hf)]
    exact h.2.2.2

theorem goodDB_createI (db : DB) (c : Nat) (ct : String) (sh : Rat) (isP : Bool) (st : String)
    (h : GoodDB db) : GoodDB (applyOp db (.createI c ct sh isP st)) := by
  show GoodDB (match createInvoice db c ct sh isP st none with
    | .ok (db', _) => db' | .error _ => db)
  cases hcl : invNumberClash db (newInvoiceRow db c ct sh isP st none) with
  | true =>
    have hres : createInvoice db c ct sh isP st none = .error "IntegrityError: invoice_number" := by
      simp only [createInvoice, hcl, if_true]
    rw [hres]
    exact h
  | false =>
    have hres : createInvoice db c ct sh isP st none =
        .ok ({ db with invoices := db.invoices ++ [newInvoiceRow db c ct sh isP st none], nextPk := db.nextPk + 1 }, db.nextPk) := by
      simp only [createInvoice, hcl, Bool.false_eq_true, if_false]
    rw [hres]
    refine ⟨?_, ?_, ?_, ?_⟩
    · show ((db.invoices ++ [newInvoiceRow db c ct sh isP st none]).map (fun r => r.pk)).Nodup
      rw [List.map_append]
      have hnotmem : db.nextPk ∉ db.invoices.map (fun r => r.pk) := by
        intro hmem
        obtain ⟨r, hr, hrpk⟩ := List.mem_map.mp hmem
        have := h.2.1 r hr
        omega
      exact nodup_append_singleton (db.invoices.map (fun r => r.pk)) db.nextPk h.1 hnotmem
    · intro r hr
      have hr' : r ∈ db.invoices ++ [newInvoiceRow db c ct sh isP st none] := hr
      show r.pk < db.nextPk + 1
      rcases List.mem_append.mp hr' with hl | hs
      · exact Nat.lt_succ_of_lt (h.2.1 r hl)
      · have := List.mem_singleton.mp hs
        subst this
        exact Nat.lt_succ_self db.nextPk
    · intro r hr
      have hr' : r ∈ db.invoices ++ [newInvoiceRow db c ct sh isP st none] := hr
      rcases List.mem_append.mp hr' with hl | hs
      · exact h.2.2.1 r hl
      · have := List.mem_singleton.mp hs
        subst this
        constructor
        · show some (get_next_invoice_number db (if isP then "P" else "I")) ≠ none
          simp
        · show some (get_next_invoice_number db (if isP then "P" else "I")) ≠ some ""
          simp only [ne_eq, Option.some.injEq]
          exact get_next_ne_empty db _ (by cases isP <;> decide)
    · show ((db.invoices ++ [newInvoiceRow db c ct sh isP st none]).filterMap
        (fun r => r.invoice_number)).Nodup
      rw [List.filterMap_append]
      have hnd : (db.invoices.filterMap (fun r => r.invoice_number)).Nodup := h.2.2.2
      refine nodup_append_singleton (db.invoices.filterMap (fun r => r.invoice_number))
        (get_next_invoice_number db (if isP then "P" else "I")) hnd ?_
      intro hmem
      obtain ⟨r, hr, hrn⟩ := List.mem_filterMap.mp hmem
      have hpkne : r.pk ≠ (newInvoiceRow db c ct sh isP st none).pk := by
        intro hc
        have := h.2.1 r hr
        rw [hc] at this
        exact absurd this (lt_irrefl _)
      exact invNumberClash_false_forall db (newInvoiceRow db c ct sh isP st none)
        (get_next_invoice_number db (if isP then "P" else "I")) hcl rfl r hr hpkne hrn

theorem goodDB_saveI (db : DB) (k : Nat) (h : GoodDB db) : GoodDB (applyOp db (.saveI k)) := by
  show GoodDB (match invoiceResave db k with | .ok db' => db' | .error _ => db)
  cases hf : findInvoice db k with
  | none =>
    have hres : invoiceResave db k = .error "Invoice.DoesNotExist" := by
      unfold invoiceResave
      rw [hf]
    rw [hres]
    exact h
  | some inv =>
    have hmem := findInvoice_mem db k inv hf
    obtain ⟨hnn, hnemp⟩ := h.2.2.1 inv hmem
    obtain ⟨s, hs⟩ : ∃ s, inv.invoice_number = some s := by
      cases hn : inv.invoice_number with
      | none => exact absurd hn hnn
      | some s2 => exact ⟨s2, rfl⟩
    have hsne : s ≠ "" := fun hc => hnemp (by rw [hs, hc])
    have hset : numberUnset inv.invoice_number = false := by
      rw [hs]
      exact numberUnset_some s hsne
    cases hcl : invNumberClash db
        ({ inv with total := calcTotal db k, grand_total := calcGrand db k inv }) with
    | true =>
      have hres : invoiceResave db k = .error "IntegrityError: invoice_number" := by
        unfold invoiceResave
        rw [hf]
        dsimp only
        rw [hset]
        simp only [Bool.false_eq_true, if_false, hcl, if_true]
      rw [hres]
      exact h
    | false =>
      rw [invoiceResave_ok db k inv hf hset hcl]
      exact goodDB_upd_const db k inv _ h hf rfl rfl

theorem goodDB_applyOp (db : DB) (op : DocOp) (h : GoodDB db) : GoodDB (applyOp db op) := by
  cases op with
  | createI c ct sh isP st => exact goodDB_createI db c ct sh isP st h
  | saveI k => exact goodDB_saveI db k h

theorem numberOf_applyOp (db : DB) (op : DocOp) (k : Nat) (s : String)
    (h : GoodDB db) (hk : numberOf db k = some s) :
    numberOf (applyOp db op) k = some s := by
  obtain ⟨inv, hf, hn⟩ : ∃ inv, findInvoice db k = some inv ∧ inv.invoice_number = some s := by
    unfold numberOf at hk
    cases hfi : findInvoice db k with
    | none =>
      rw [hfi] at hk
      cases hk
    | some inv =>
      rw [hfi] at hk
      exact ⟨inv, rfl, hk⟩
  cases op with
  | createI c ct sh isP st =>
    show numberOf (match createInvoice db c ct sh isP st none with
      | .ok (db', _) => db' | .error _ => db) k = some s
    cases hcl : invNumberClash db (newInvoiceRow db c ct sh isP st none) with
    | true =>
      have hres : createInvoice db c ct sh isP st none = .error "IntegrityError: invoice_number" := by
        simp only [createInvoice, hcl, if_true]
      rw [hres]
      exact hk
    | false =>
      have hres : createInvoice db c ct sh isP st none =
          .ok ({ db with invoices := db.invoices ++ [newInvoiceRow db c ct sh isP st none], nextPk := db.nextPk + 1 }, db.nextPk) := by
        simp only [createInvoice, hcl, Bool.false_eq_true, if_false]
      rw [hres]
      show ((db.invoices ++ [newInvoiceRow db c ct sh isP st none]).find?
        (fun r => r.pk == k)).bind (fun r => r.invoice_number) = some s
      rw [find?_append_left _ inv db.invoices [newInvoiceRow db c ct sh isP st none] hf]
      exact hn
  | saveI j =>
    show numberOf (match invoiceResave db j with | .ok db' => db' | .error _ => db) k = some s
    cases hfj : findInvoice db j with
    | none =>
      have hres : invoiceResave db j = .error "Invoice.DoesNotExist" := by
        unfold invoiceResave
        rw [hfj]
      rw [hres]
      exact hk
    | some invj =>
      have hmemj := findInvoice_mem db j invj hfj
      have hpkj := findInvoice_pk db j invj hfj
      obtain ⟨hnnj, hnej⟩ := h.2.2.1 invj hmemj
      obtain ⟨sj, hsj⟩ : ∃ sj, invj.invoice_number = some sj := by
        cases hn2 : invj.invoice_number with
        | none => exact absurd hn2 hnnj
        | some s2 => exact ⟨s2, rfl⟩
      have hsjne : sj ≠ "" := fun hc => hnej (by rw [hsj, hc])
      have hsetj : numberUnset invj.invoice_number = false := by
        rw [hsj]
        exact numberUnset_some sj hsjne
      cases hcl : invNumberClash db
          ({ invj with total := calcTotal db j, grand_total := calcGrand db j invj }) with
      | true =>
        have hres : invoiceResave db j = .error "IntegrityError: invoice_number" := by
          unfold invoiceResave
          rw [hfj]
          dsimp only
          rw [hsetj]
          simp only [Bool.false_eq_true, if_false, hcl, if_true]
        rw [hres]
        exact hk
      | false =>
        rw [invoiceResave_ok db j invj hfj hsetj hcl]
        by_cases hjk : j = k
        · subst hjk
          have hinv : invj = inv := Option.some.inj (hfj.symm.trans hf)
          show (findInvoice (updInvoice db j (fun _ =>
            { invj with total := calcTotal db j, grand_total := calcGrand db j invj })) j).bind
            (fun r => r.invoice_number) = some s
          rw [updInvoice_find db j (fun _ =>
            { invj with total := calcTotal db j, grand_total := calcGrand db j invj })
            (fun _ _ => hpkj), hfj]
          show invj.invoice_number = some s
          rw [hinv]
          exact hn
        · show ((db.invoices.map (fun r => if r.pk == j then
            { invj with total := calcTotal db j, grand_total := calcGrand db j invj } else r)).find?
            (fun r => r.pk == k)).bind (fun r => r.invoice_number) = some s
          rw [find?_map_upd_ne k j (fun _ =>
            { invj with total := calcTotal db j, grand_total := calcGrand db j invj })
            (fun hc => hjk hc.symm) (fun _ _ => hpkj) db.invoices]
          rw [show db.invoices.find? (fun r => r.pk == k) = some inv from hf]
          exact hn

theorem goodDB_runOps : ∀ (ops : List DocOp) (db : DB), GoodDB db → GoodDB (runOps db ops)
  | [], _, h => h
  | op :: ops, db, h => goodDB_runOps ops (applyOp db op) (goodDB_applyOp db op h)

theorem numberOf_runOps : ∀ (ops : List DocOp) (db : DB) (k : Nat) (s : String),
    GoodDB db → numberOf db k = some s → numberOf (runOps db ops) k = some s
  | [], _, _, _, _, hk => hk
  | op :: ops, db, k, s, h, hk =>
    numberOf_runOps ops (applyOp db op) k s (goodDB_applyOp db op h)
      (numberOf_applyOp db op k s h hk)

/-- C3: over any sequential run of document creations and saves from the
empty store, a document's number, once assigned at its first persist, is
returned unchanged by every later state (no save ever rewrites it), and at
every reachable state the stored numbers sharing any kind-prefix are
pairwise distinct. -/
theorem document_numbers_immutable_and_unique (ops more : List DocOp) (k : Nat) (s : String)
    (h : numberOf (runOps emptyDB ops) k = some s) :
    numberOf (runOps emptyDB (ops ++ more)) k = some s ∧
    ∀ pfx : String,
      ((invNumbers (runOps emptyDB (ops ++ more))).filter
        (fun n => startsWithB pfx.data n.data)).Nodup := by
  have hg : GoodDB (runOps emptyDB ops) := goodDB_runOps ops emptyDB goodDB_empty
  have happ : runOps emptyDB (ops ++ more) = runOps (runOps emptyDB ops) more := by
    show (ops ++ more).foldl applyOp emptyDB = _
    rw [List.foldl_append]
    rfl
  constructor
  · rw [happ]
    exact numberOf_runOps more (runOps emptyDB ops) k s hg h
  · intro pfx
    have hnd : (invNumbers (runOps emptyDB (ops ++ more))).Nodup := by
      rw [happ]
      exact (goodDB_runOps more (runOps emptyDB ops) hg).2.2.2
    exact hnd.filter _

theorem document_numbers_immutable_and_unique_witness :
    numberOf (runOps emptyDB ([DocOp.createI 4 "0711" 0 false "draft"] ++ [DocOp.saveI 1]))
      1 = some "I0001" ∧
    ∀ pfx : String,
      ((invNumbers (runOps emptyDB
          ([DocOp.createI 4 "0711" 0 false "draft"] ++ [DocOp.saveI 1]))).filter
        (fun n => startsWithB pfx.data n.data)).Nodup :=
  document_numbers_immutable_and_unique [DocOp.createI 4 "0711" 0 false "draft"]
    [DocOp.saveI 1] 1 "I0001" (by decide)
